import Mathlib

/-!
# The in-memory mock file of the serializer unit tests

A shallow embedding of `src/unittest/mock_file.cc` (RethinkDB) and the
properties of it that the specification states.

Conventions of the embedding.

* The platform is LP64: `int64_t` is an `Int` in `[-2^63, 2^63)`, `size_t` and
  `uint64_t` are a `Nat` below `2^64`, and every conversion and every unsigned
  operation of the source is written out with its `% 2^64`.
* A `std::vector<char>` is the list of its bytes.  The vectors that are alive
  are addressed by a number (their address) in the `World`; a `mock_file_t`
  holds such an address in `data_`, as the C++ object holds a pointer.
  Memory is unbounded: `resize` does not fail for lack of memory.
* A caller's `void *buf` is a `mem_block`, its address and its bytes; the
  address is what the alignment check sees, the bytes are what `memcpy` reads
  or overwrites.
* The alignment check `verify_aligned_file_access` is defined outside this
  file's source; `read_async` and `write_async` take it as the parameter
  `verify`, so what is proved of them holds for every such check.
* `guarantee(c)` aborts the process when `c` is false and gtest's `ASSERT_*`
  leaves the function with a fatal failure: both end the call in
  `Outcome.fatal s`, where `s` is the state reached when the check failed.
  A call that runs to its end is `Outcome.returned s a`.
-/

namespace unittest

/-! ## Machine integers -/

/-- One `char` of a `std::vector<char>` or of a caller's buffer. -/
abbrev Byte := Fin 256

/-- The largest `size_t` (64 bits). -/
def SIZE_MAX : Nat := 2 ^ 64 - 1

/-- The largest `ptrdiff_t`; no `std::vector<char>` holds more elements
(`size() <= max_size() <= PTRDIFF_MAX`). -/
def PTRDIFF_MAX : Nat := 2 ^ 63 - 1

/-- The values of an `int64_t`. -/
def is_int64 (x : Int) : Prop := -(2 ^ 63) ≤ x ∧ x < 2 ^ 63

/-- The values of a `size_t`. -/
def is_size_t (n : Nat) : Prop := n ≤ SIZE_MAX

instance (x : Int) : Decidable (is_int64 x) := by unfold is_int64; infer_instance

instance (n : Nat) : Decidable (is_size_t n) := by unfold is_size_t; infer_instance

/-- The conversion `static_cast<uint64_t>(x)` of a signed value (also the implicit
conversion of an `int64_t` operand to `size_t`). -/
def to_uint64 (x : Int) : Nat := (x % 2 ^ 64).toNat

/-- The conversion of a `size_t` to `int64_t` (two's complement). -/
def to_int64 (n : Nat) : Int :=
  if n % 2 ^ 64 < 2 ^ 63 then ((n % 2 ^ 64 : Nat) : Int) else ((n % 2 ^ 64 : Nat) : Int) - 2 ^ 64

/-- Unsigned 64-bit addition. -/
def uadd64 (a b : Nat) : Nat := (a + b) % 2 ^ 64

/-- Unsigned 64-bit subtraction. -/
def usub64 (a b : Nat) : Nat := (a % 2 ^ 64 + 2 ^ 64 - b % 2 ^ 64) % 2 ^ 64

/-! ## Memory -/

/-- The contents after `v.resize(n, c)`: the first `n` elements of `v`, followed by
copies of `c` up to length `n`. -/
def resize (v : List Byte) (n : Nat) (c : Byte) : List Byte :=
  v.take n ++ List.replicate (n - v.length) c

/-- The contents of the destination block after `memcpy(dst + dstOff, src + srcOff, n)`.
C defines the call only when both ranges lie inside their blocks. -/
def memcpy (dst : List Byte) (dstOff : Nat) (src : List Byte) (srcOff : Nat) (n : Nat) :
    List Byte :=
  dst.take dstOff ++ (src.drop srcOff).take n ++ dst.drop (dstOff + n)

/-- A block of caller memory handed over as `void *buf`: its address and its bytes. -/
structure mem_block where
  addr : Nat
  bytes : List Byte

/-- The state outside the objects: the live vectors by address, the coroutines that
`coro_t::spawn_sometime` has posted and that have not run yet, and the callbacks whose
`on_io_complete` has run. -/
structure World where
  vectors : Nat → List Byte
  pending : List Nat
  completed : List Nat

/-- The world in which the vector at address `a` has contents `v`. -/
def World.store (w : World) (a : Nat) (v : List Byte) : World :=
  { w with vectors := fun b => if b = a then v else w.vectors b }

/-- How a call ends: it returns (new state and result), or a check fails (the state
at that point). -/
inductive Outcome (σ α : Type) where
  | returned (s : σ) (a : α)
  | fatal (s : σ)

/-- The call returned. -/
def Outcome.succeeded {σ α : Type} : Outcome σ α → Bool
  | .returned _ _ => true
  | .fatal _ => false

/-- The state in which the call ended. -/
def Outcome.state {σ α : Type} : Outcome σ α → σ
  | .returned s _ => s
  | .fatal s => s

/-- The result of a call that returned. -/
def Outcome.result {σ α : Type} : Outcome σ α → Option α
  | .returned _ a => some a
  | .fatal _ => none

/-! ## Collaborators that are not part of the sources -/

/-- Modelled from the spec: `mock_file_t::mode_t` is declared in `mock_file.hpp`, which is
not among the sources.  The spec calls it "an access-mode flag set (read, write, or
both)": a mode is the set of its two flags, `mode & mode_read` tests the read flag,
`mode & mode_write` the write flag, and `mode != 0` says that some flag is set. -/
structure mode_t where
  read : Bool
  write : Bool
deriving DecidableEq

/-- The mode with only the read flag. -/
def mode_read : mode_t := ⟨true, false⟩

/-- The mode with only the write flag. -/
def mode_write : mode_t := ⟨false, true⟩

/-- The mode `mode_read | mode_write`. -/
def mode_rw : mode_t := ⟨true, true⟩

/-- The test `mode != 0`. -/
def mode_t.nonzero (m : mode_t) : Bool := m.read || m.write

/-- Modelled from the spec: `coro_t::spawn_sometime` belongs to the coroutine runtime,
which is not among the sources.  The spec: the callback is scheduled "for later
invocation (never within the same call)", "completion is posted to the scheduler and
observed on a later turn".  Posting adds the callback to the pending set and runs
nothing. -/
def spawn_sometime (cb : Nat) (w : World) : World :=
  { w with pending := w.pending ++ [cb] }

/-- Modelled from the spec: one turn of the scheduler, which runs the pending
completions ("only after control returns to the scheduler"). -/
def scheduler_turn (w : World) : World :=
  { w with pending := [], completed := w.completed ++ w.pending }

/-- Modelled from the spec: `verify_aligned_file_access` is defined in the disk I/O layer,
which is not among the sources.  The spec: "checking that an offset, length, and buffer
address are each multiples of the storage device's block size before permitting an I/O
operation".  The block size `DEVICE_BLOCK_SIZE` is a parameter. -/
def verify_aligned_file_access (DEVICE_BLOCK_SIZE : Nat) (_file_size : Nat) (offset : Int)
    (length : Nat) (buf : Nat) : Bool :=
  decide ((DEVICE_BLOCK_SIZE : Int) ∣ offset) && decide (DEVICE_BLOCK_SIZE ∣ length)
    && decide (DEVICE_BLOCK_SIZE ∣ buf)

/-! ## `mock_file_t` -/

/-- The object `mock_file_t`: its mode and the address of the vector it works on. -/
structure mock_file_t where
  mode_ : mode_t
  data_ : Nat

/-- The constructor `mock_file_t(mode, data)`; `data = none` is the null pointer and the
result `none` is a failed `guarantee`. -/
def mock_file_t.ctor (mode : mode_t) (data : Option Nat) : Option mock_file_t :=
  if mode.nonzero then
    match data with
    | some a => some ⟨mode, a⟩
    | none => none
  else none

/-- The vector `*data_` the file works on. -/
def mock_file_t.contents (self : mock_file_t) (w : World) : List Byte := w.vectors self.data_

/-- The method `get_size()`: `data_->size()` returned as an `int64_t`. -/
def mock_file_t.get_size (self : mock_file_t) (w : World) : Int :=
  to_int64 (w.vectors self.data_).length

/-- The method `set_size(size)`. -/
def mock_file_t.set_size (self : mock_file_t) (size : Int) (w : World) : Outcome World Unit :=
  if decide (0 ≤ size) && decide (to_uint64 size ≤ SIZE_MAX) then
    .returned (w.store self.data_ (resize (w.vectors self.data_) (to_uint64 size) 0)) ()
  else .fatal w

/-- The method `set_size_at_least(size)`. -/
def mock_file_t.set_size_at_least (self : mock_file_t) (size : Int) (w : World) :
    Outcome World Unit :=
  if decide (0 ≤ size) && decide (to_uint64 size ≤ SIZE_MAX) then
    if (w.vectors self.data_).length < to_uint64 size then
      .returned (w.store self.data_ (resize (w.vectors self.data_) (to_uint64 size) 0)) ()
    else .returned w ()
  else .fatal w

/-- The condition inside the bounds `guarantee` of `read_async` and `write_async`:
`!(offset < 0 || static_cast<uint64_t>(offset) > SIZE_MAX - length
   || offset + length > data_->size())`, the sum being taken in `size_t`. -/
def bounds_guard (offset : Int) (length : Nat) (size : Nat) : Bool :=
  !(decide (offset < 0)
    || decide (to_uint64 offset > usub64 SIZE_MAX length)
    || decide (uadd64 (to_uint64 offset) length > size))

/-- The method `read_async(offset, length, buf, account, cb)`.  The alignment check of the
disk layer is the parameter `verify` (applied to `data_->size()`, `offset`, `length`
and the address `buf`); the unused `account` is left out.  The result is the contents of
the caller's block after the copy. -/
def mock_file_t.read_async (verify : Nat → Int → Nat → Nat → Bool) (self : mock_file_t)
    (offset : Int) (length : Nat) (buf : mem_block) (cb : Nat) (w : World) :
    Outcome World (List Byte) :=
  if !self.mode_.read then .fatal w
  else if !verify (w.vectors self.data_).length offset length buf.addr then .fatal w
  else if !bounds_guard offset length (w.vectors self.data_).length then .fatal w
  else
    let out := memcpy buf.bytes 0 (w.vectors self.data_) (to_uint64 offset) length
    .returned (spawn_sometime cb w) out

/-- The method `write_async(offset, length, buf, account, cb, wrap_in_datasyncs)`, with
`verify` as in `read_async`; the unused `account` and `wrap_in_datasyncs` are left out. -/
def mock_file_t.write_async (verify : Nat → Int → Nat → Nat → Bool) (self : mock_file_t)
    (offset : Int) (length : Nat) (buf : mem_block) (cb : Nat) (w : World) :
    Outcome World Unit :=
  if !self.mode_.write then .fatal w
  else if !verify (w.vectors self.data_).length offset length buf.addr then .fatal w
  else if !bounds_guard offset length (w.vectors self.data_).length then .fatal w
  else
    let w1 := w.store self.data_
      (memcpy (w.vectors self.data_) (to_uint64 offset) buf.bytes 0 length)
    .returned (spawn_sometime cb w1) ()

/-! ## `mock_file_opener_t` -/

/-- The lifecycle states of the opener's file. -/
inductive file_existence_state_t where
  | no_file
  | temporary_file
  | permanent_file
  | unlinked_file
deriving DecidableEq

/-- The object `mock_file_opener_t`: the address of its member vector `file_` and its
lifecycle state. -/
structure mock_file_opener_t where
  file_ : Nat
  file_existence_state_ : file_existence_state_t
deriving DecidableEq

/-- The method `open_serializer_file_create_temporary(file_out)`; the result is the object
put into `file_out`. -/
def mock_file_opener_t.open_serializer_file_create_temporary (self : mock_file_opener_t) :
    Outcome mock_file_opener_t mock_file_t :=
  if self.file_existence_state_ = .no_file then
    match mock_file_t.ctor mode_rw (some self.file_) with
    | some f => .returned { self with file_existence_state_ := .temporary_file } f
    | none => .fatal self
  else .fatal self

/-- The method `move_serializer_file_to_permanent_location()`. -/
def mock_file_opener_t.move_serializer_file_to_permanent_location
    (self : mock_file_opener_t) : Outcome mock_file_opener_t Unit :=
  if self.file_existence_state_ = .temporary_file then
    .returned { self with file_existence_state_ := .permanent_file } ()
  else .fatal self

/-- The method `open_serializer_file_existing(file_out)`. -/
def mock_file_opener_t.open_serializer_file_existing (self : mock_file_opener_t) :
    Outcome mock_file_opener_t mock_file_t :=
  if self.file_existence_state_ = .temporary_file
      ∨ self.file_existence_state_ = .permanent_file then
    match mock_file_t.ctor mode_rw (some self.file_) with
    | some f => .returned self f
    | none => .fatal self
  else .fatal self

/-- The method `unlink_serializer_file()`. -/
def mock_file_opener_t.unlink_serializer_file (self : mock_file_opener_t) :
    Outcome mock_file_opener_t Unit :=
  if self.file_existence_state_ = .temporary_file
      ∨ self.file_existence_state_ = .permanent_file then
    .returned { self with file_existence_state_ := .unlinked_file } ()
  else .fatal self

/-! ## Worlds used in examples -/

/-- The world with an empty vector at every address and nothing scheduled. -/
def empty_world : World := ⟨fun _ => [], [], []⟩

/-! ## The lifecycle of the opener as a step function -/

/-- The four lifecycle operations of the opener. -/
inductive opener_op where
  | open_create_temporary
  | move_to_permanent
  | open_existing
  | unlink
deriving DecidableEq

/-- One lifecycle operation applied to the opener: the call of the method the operation
names, keeping the opener and how the call ended (the file put into `file_out` is left
out). -/
def mock_file_opener_t.step (self : mock_file_opener_t) :
    opener_op → Outcome mock_file_opener_t Unit
  | .open_create_temporary =>
    match self.open_serializer_file_create_temporary with
    | .returned s _ => .returned s ()
    | .fatal s => .fatal s
  | .move_to_permanent => self.move_serializer_file_to_permanent_location
  | .open_existing =>
    match self.open_serializer_file_existing with
    | .returned s _ => .returned s ()
    | .fatal s => .fatal s
  | .unlink => self.unlink_serializer_file

/-- The lifecycle state after a step that returned, `none` after a step that failed. -/
def mock_file_opener_t.step_state (self : mock_file_opener_t) (op : opener_op) :
    Option file_existence_state_t :=
  match self.step op with
  | .returned s _ => some s.file_existence_state_
  | .fatal _ => none

/-- The transition table in the words of the specification: `open_create_temporary` is
"valid only from NoFile; transitions to Temporary"; `move_to_permanent` is "valid only
from Temporary; transitions to Permanent"; `open_existing` is "valid only from Temporary
or Permanent ... does not change state"; `unlink` is "valid only from Temporary or
Permanent; transitions to Unlinked".  `none` is a call from a disallowed state. -/
def spec_transition : file_existence_state_t → opener_op → Option file_existence_state_t
  | .no_file, .open_create_temporary => some .temporary_file
  | .temporary_file, .move_to_permanent => some .permanent_file
  | .temporary_file, .open_existing => some .temporary_file
  | .permanent_file, .open_existing => some .permanent_file
  | .temporary_file, .unlink => some .unlinked_file
  | .permanent_file, .unlink => some .unlinked_file
  | _, _ => none

/-! ## `mock_file_t::writev_async` -/

/-- The staging block after the source buffers have been copied into it one after the
other, the next one starting at offset `off`. -/
def fill_from (dst : List Byte) (off : Nat) : List (List Byte) → List Byte
  | [] => dst
  | s :: rest => fill_from (memcpy dst off s 0 s.length) (off + s.length) rest

/-- Modelled from the spec: `fill_bufs_from_source` is defined outside this file's source.
The spec: `writev_async` "flattens the scatter-gather source list into one contiguous
staging buffer".  With the one destination buffer `bufvec[0]` and no unused bytes, the
source buffers are copied into the destination in list order, each right after the one
before, starting at its first byte. -/
def fill_bufs_from_source (dst : List Byte) (source : List mem_block) : List Byte :=
  fill_from dst 0 (source.map fun b => b.bytes)

/-- The method `writev_async(offset, length, bufs, account, cb)`.  The block `staging` is
what `malloc_aligned(length, DEVICE_BLOCK_SIZE)` returned: its address and the `length`
bytes it holds before it is filled. -/
def mock_file_t.writev_async (verify : Nat → Int → Nat → Nat → Bool) (self : mock_file_t)
    (offset : Int) (length : Nat) (bufs : List mem_block) (cb : Nat) (staging : mem_block)
    (w : World) : Outcome World Unit :=
  let buf : mem_block := ⟨staging.addr, fill_bufs_from_source staging.bytes bufs⟩
  self.write_async verify offset length buf cb w

/-! ## `mock_semantic_checking_file_t` -/

/-- The object `mock_semantic_checking_file_t`: the cursor `pos_` and the address of the
vector it works on.  The class is declared in `mock_file.hpp`; the cursor is a `size_t`,
as the unsigned arithmetic with `data_->size()` and `length` makes it. -/
structure mock_semantic_checking_file_t where
  pos_ : Nat
  data_ : Nat

/-- What a blocking call leaves behind: the object, the world, the bytes of the caller's
block, and the returned count. -/
structure blocking_result where
  file : mock_semantic_checking_file_t
  world : World
  buf : List Byte
  ret : Nat

/-- The method `semantic_blocking_read(buf, length)`. -/
def mock_semantic_checking_file_t.semantic_blocking_read
    (self : mock_semantic_checking_file_t) (buf : mem_block) (length : Nat) (w : World) :
    blocking_result :=
  let length_to_read := min (usub64 (w.vectors self.data_).length self.pos_) length
  let out := memcpy buf.bytes 0 (w.vectors self.data_) self.pos_ length_to_read
  ⟨{ self with pos_ := uadd64 self.pos_ length_to_read }, w, out, length_to_read⟩

/-- The method `semantic_blocking_write(buf, length)`; `resize(n)` fills with zero
bytes. -/
def mock_semantic_checking_file_t.semantic_blocking_write
    (self : mock_semantic_checking_file_t) (buf : mem_block) (length : Nat) (w : World) :
    blocking_result :=
  let w1 :=
    if (w.vectors self.data_).length < uadd64 self.pos_ length then
      w.store self.data_ (resize (w.vectors self.data_) (uadd64 self.pos_ length) 0)
    else w
  let w2 := w1.store self.data_ (memcpy (w1.vectors self.data_) self.pos_ buf.bytes 0 length)
  ⟨{ self with pos_ := uadd64 self.pos_ length }, w2, buf.bytes, length⟩

/-- The buffer size `data_->size()` seen by the object. -/
def mock_semantic_checking_file_t.size (self : mock_semantic_checking_file_t) (w : World) :
    Nat :=
  (w.vectors self.data_).length

/-- Successive `semantic_blocking_write` calls on one object, one for each chunk, each
writing the whole chunk. -/
def blocking_writes (f : mock_semantic_checking_file_t) (w : World) :
    List mem_block → mock_semantic_checking_file_t × World
  | [] => (f, w)
  | c :: cs =>
    blocking_writes (f.semantic_blocking_write c c.bytes.length w).file
      (f.semantic_blocking_write c c.bytes.length w).world cs

/-- Successive `semantic_blocking_read` calls on one object, one for each block, each
asking for as many bytes as the block holds; the result is the object and world at the
end and, for each call, the bytes it returned (the first `ret` bytes of the block). -/
def blocking_reads (f : mock_semantic_checking_file_t) (w : World) :
    List mem_block → mock_semantic_checking_file_t × World × List (List Byte)
  | [] => (f, w, [])
  | b :: bs =>
    let r := f.semantic_blocking_read b b.bytes.length w
    let rest := blocking_reads r.file r.world bs
    (rest.1, rest.2.1, r.buf.take r.ret :: rest.2.2)

/-- One call on a stream: a read into a block of a requested length, or a write of a
block. -/
inductive stream_call where
  | read (buf : mem_block) (length : Nat)
  | write (buf : mem_block)

/-- The bytes a call adds to the buffer at most: the length of a written block. -/
def stream_call.written : stream_call → Nat
  | .read _ _ => 0
  | .write b => b.bytes.length

/-- A finite sequence of blocking calls on one object. -/
def run_stream (f : mock_semantic_checking_file_t) (w : World) :
    List stream_call → mock_semantic_checking_file_t × World
  | [] => (f, w)
  | .read b n :: cs =>
    run_stream (f.semantic_blocking_read b n w).file (f.semantic_blocking_read b n w).world cs
  | .write b :: cs =>
    run_stream (f.semantic_blocking_write b b.bytes.length w).file
      (f.semantic_blocking_write b b.bytes.length w).world cs

/-! ## Sequences of lifecycle operations -/

/-- The opener together with the world that holds its vector. -/
structure opener_world where
  opener : mock_file_opener_t
  world : World

/-- One lifecycle call in a world: the method is called on the opener; none of the four
methods reads or writes a vector, so the world is passed on as it is.  The result is the
file put into `file_out`, if the method has one and reached that statement. -/
def opener_world.call (s : opener_world) :
    opener_op → Outcome opener_world (Option mock_file_t)
  | .open_create_temporary =>
    match s.opener.open_serializer_file_create_temporary with
    | .returned o f => .returned ⟨o, s.world⟩ (some f)
    | .fatal o => .fatal ⟨o, s.world⟩
  | .move_to_permanent =>
    match s.opener.move_serializer_file_to_permanent_location with
    | .returned o _ => .returned ⟨o, s.world⟩ none
    | .fatal o => .fatal ⟨o, s.world⟩
  | .open_existing =>
    match s.opener.open_serializer_file_existing with
    | .returned o f => .returned ⟨o, s.world⟩ (some f)
    | .fatal o => .fatal ⟨o, s.world⟩
  | .unlink =>
    match s.opener.unlink_serializer_file with
    | .returned o _ => .returned ⟨o, s.world⟩ none
    | .fatal o => .fatal ⟨o, s.world⟩

/-- The opener after a finite sequence of lifecycle operations, each carried on from the
state the one before ended in, whether it returned or failed. -/
def mock_file_opener_t.run (self : mock_file_opener_t) : List opener_op → mock_file_opener_t
  | [] => self
  | op :: ops => mock_file_opener_t.run (self.step op).state ops

/-- The position of a lifecycle state in the order
`no_file < temporary_file < permanent_file < unlinked_file`. -/
def file_existence_state_t.rank : file_existence_state_t → Nat
  | .no_file => 0
  | .temporary_file => 1
  | .permanent_file => 2
  | .unlinked_file => 3

/-! ## Byte streams -/

/-- The bytes of a list of blocks, one block after the other. -/
def all_bytes (bs : List mem_block) : List Byte := (bs.map fun b => b.bytes).flatten

/-- The number of bytes in a list of blocks. -/
def total_length (bs : List mem_block) : Nat := (bs.map fun b => b.bytes.length).sum

/-- The bytes a sequence of blocking calls writes in all. -/
def total_written (calls : List stream_call) : Nat := (calls.map stream_call.written).sum

/-! ## Facts about the machine integers and the memory operations -/

theorem to_uint64_of_nonneg (x : Int) (h0 : 0 ≤ x) (h1 : x < 2 ^ 64) :
    to_uint64 x = x.toNat := by
  unfold to_uint64; omega

theorem to_int64_of_le (n : Nat) (h : n ≤ PTRDIFF_MAX) : to_int64 n = (n : Int) := by
  unfold PTRDIFF_MAX at h
  unfold to_int64
  split <;> omega

theorem bounds_guard_iff (offset : Int) (length size : Nat) (ho : is_int64 offset)
    (hl : is_size_t length) (hs : is_size_t size) :
    bounds_guard offset length size = true ↔ (0 ≤ offset ∧ offset + length ≤ size) := by
  unfold is_int64 is_size_t SIZE_MAX at *
  simp only [bounds_guard, to_uint64, usub64, uadd64, SIZE_MAX, Bool.not_eq_true',
    Bool.or_eq_false_iff, decide_eq_false_iff_not]
  omega

theorem resize_length (v : List Byte) (n : Nat) (c : Byte) : (resize v n c).length = n := by
  simp [resize]; omega

theorem resize_of_le (v : List Byte) (n : Nat) (c : Byte) (h : v.length ≤ n) :
    resize v n c = v ++ List.replicate (n - v.length) c := by
  simp [resize, List.take_of_length_le h]

theorem resize_getElem?_old (v : List Byte) (n : Nat) (c : Byte) (i : Nat)
    (h1 : i < v.length) (h2 : i < n) : (resize v n c)[i]? = v[i]? := by
  unfold resize
  rw [List.getElem?_append_left (by simp; omega)]
  simp [List.getElem?_take, h2]

theorem resize_getElem?_new (v : List Byte) (n : Nat) (c : Byte) (i : Nat)
    (h1 : v.length ≤ i) (h2 : i < n) : (resize v n c)[i]? = some c := by
  unfold resize
  rw [List.getElem?_append_right (by simp; omega)]
  simp [List.getElem?_replicate]
  omega

theorem memcpy_length (dst src : List Byte) (dstOff srcOff n : Nat)
    (hd : dstOff + n ≤ dst.length) (hs : srcOff + n ≤ src.length) :
    (memcpy dst dstOff src srcOff n).length = dst.length := by
  simp [memcpy]; omega

theorem memcpy_read_back (dst src out : List Byte) (off n : Nat)
    (hd : off + n ≤ dst.length) (hs : src.length = n) :
    memcpy out 0 (memcpy dst off src 0 n) off n = src ++ out.drop n := by
  subst hs
  simp [memcpy]
  have : (List.take off dst).length = off := by simp; omega
  rw [List.drop_append_of_le_length (by omega), List.drop_of_length_le (by omega)]
  simp

theorem store_vectors_same (w : World) (a : Nat) (v : List Byte) :
    (w.store a v).vectors a = v := by simp [World.store]

theorem store_vectors_other (w : World) (a b : Nat) (v : List Byte) (h : b ≠ a) :
    (w.store a v).vectors b = w.vectors b := by simp [World.store, h]

/-! ## Round trip of `write_async` and `read_async` -/

theorem write_async_read_async_shared (verify : Nat → Int → Nat → Nat → Bool)
    (f g : mock_file_t) (w : World) (offset : Int) (length : Nat) (src out : mem_block)
    (cb1 cb2 : Nat) (hfg : g.data_ = f.data_)
    (hwrite : f.mode_.write = true) (hread : g.mode_.read = true)
    (hoff : is_int64 offset) (hlen : is_size_t length)
    (hsize : is_size_t (w.vectors f.data_).length)
    (hvw : verify (w.vectors f.data_).length offset length src.addr = true)
    (hvr : verify (w.vectors f.data_).length offset length out.addr = true)
    (hlo : 0 ≤ offset) (hhi : offset + length ≤ (w.vectors f.data_).length)
    (hsrc : src.bytes.length = length) (hout : out.bytes.length = length) :
    (f.write_async verify offset length src cb1 w).succeeded = true ∧
    (g.read_async verify offset length out cb2
        (f.write_async verify offset length src cb1 w).state).succeeded = true ∧
    (g.read_async verify offset length out cb2
        (f.write_async verify offset length src cb1 w).state).result = some src.bytes := by
  have hg : bounds_guard offset length (w.vectors f.data_).length = true :=
    (bounds_guard_iff offset length _ hoff hlen hsize).2 ⟨hlo, hhi⟩
  have hu : to_uint64 offset = offset.toNat :=
    to_uint64_of_nonneg offset hlo (by unfold is_int64 at hoff; omega)
  have hin : offset.toNat + length ≤ (w.vectors f.data_).length := by omega
  have hlen1 : (memcpy (w.vectors f.data_) offset.toNat src.bytes 0 length).length
      = (w.vectors f.data_).length :=
    memcpy_length _ _ _ _ _ hin (by omega)
  have hw1 : f.write_async verify offset length src cb1 w
      = .returned (spawn_sometime cb1 (w.store f.data_
          (memcpy (w.vectors f.data_) offset.toNat src.bytes 0 length))) () := by
    simp [mock_file_t.write_async, hwrite, hvw, hg, hu]
  rw [hw1]
  have hr1 : g.read_async verify offset length out cb2
      (spawn_sometime cb1 (w.store f.data_
          (memcpy (w.vectors f.data_) offset.toNat src.bytes 0 length)))
      = .returned (spawn_sometime cb2 (spawn_sometime cb1 (w.store f.data_
          (memcpy (w.vectors f.data_) offset.toNat src.bytes 0 length)))) src.bytes := by
    simp only [mock_file_t.read_async, Outcome.state, spawn_sometime, hfg, store_vectors_same,
      hlen1, hread, hvr, hg, hu, Bool.not_true, Bool.false_eq_true, if_false]
    rw [memcpy_read_back _ _ _ _ _ hin hsrc, List.drop_of_length_le (by omega)]
    simp
  simp only [Outcome.state, hr1, Outcome.succeeded, Outcome.result, and_self]

/-- C1: on a file with read and write capability, for an offset and length that pass the
alignment check and satisfy `0 <= offset` and `offset + length <= size`, and a source
block of `length` bytes, `write_async(offset, length, src)` returns, and a following
`read_async(offset, length, out)` over the same region returns with the `length` bytes of
`out` equal to the bytes of `src`. -/
theorem write_async_read_async_roundtrip (verify : Nat → Int → Nat → Nat → Bool)
    (self : mock_file_t) (w : World) (offset : Int) (length : Nat) (src out : mem_block)
    (cb1 cb2 : Nat)
    (hread : self.mode_.read = true) (hwrite : self.mode_.write = true)
    (hoff : is_int64 offset) (hlen : is_size_t length)
    (hsize : is_size_t (self.contents w).length)
    (hvw : verify (self.contents w).length offset length src.addr = true)
    (hvr : verify (self.contents w).length offset length out.addr = true)
    (hlo : 0 ≤ offset) (hhi : offset + length ≤ (self.contents w).length)
    (hsrc : src.bytes.length = length) (hout : out.bytes.length = length) :
    (self.write_async verify offset length src cb1 w).succeeded = true ∧
    (self.read_async verify offset length out cb2
        (self.write_async verify offset length src cb1 w).state).succeeded = true ∧
    (self.read_async verify offset length out cb2
        (self.write_async verify offset length src cb1 w).state).result = some src.bytes :=
  write_async_read_async_shared verify self self w offset length src out cb1 cb2 rfl hwrite
    hread hoff hlen hsize hvw hvr hlo hhi hsrc hout

/-- C1, witness: offset 0, length 512, source 512 bytes of `0xAA`, on a file of 512 bytes
with device block size 512. -/
theorem write_async_read_async_roundtrip_witness :
    ((⟨mode_rw, 0⟩ : mock_file_t).write_async (verify_aligned_file_access 512) 0 512
        ⟨4096, List.replicate 512 0xAA⟩ 1
        (empty_world.store 0 (List.replicate 512 0))).succeeded = true ∧
    ((⟨mode_rw, 0⟩ : mock_file_t).read_async (verify_aligned_file_access 512) 0 512
        ⟨8192, List.replicate 512 0⟩ 2
        (((⟨mode_rw, 0⟩ : mock_file_t).write_async (verify_aligned_file_access 512) 0 512
          ⟨4096, List.replicate 512 0xAA⟩ 1
          (empty_world.store 0 (List.replicate 512 0))).state)).succeeded = true ∧
    ((⟨mode_rw, 0⟩ : mock_file_t).read_async (verify_aligned_file_access 512) 0 512
        ⟨8192, List.replicate 512 0⟩ 2
        (((⟨mode_rw, 0⟩ : mock_file_t).write_async (verify_aligned_file_access 512) 0 512
          ⟨4096, List.replicate 512 0xAA⟩ 1
          (empty_world.store 0 (List.replicate 512 0))).state)).result
      = some (List.replicate 512 0xAA) :=
  write_async_read_async_roundtrip (verify_aligned_file_access 512) ⟨mode_rw, 0⟩
    (empty_world.store 0 (List.replicate 512 0)) 0 512 ⟨4096, List.replicate 512 0xAA⟩
    ⟨8192, List.replicate 512 0⟩ 1 2 rfl rfl (by decide) (by decide)
    (by simp only [mock_file_t.contents, store_vectors_same, List.length_replicate]; decide)
    (by simp only [mock_file_t.contents, store_vectors_same, List.length_replicate]; decide)
    (by simp only [mock_file_t.contents, store_vectors_same, List.length_replicate]; decide)
    (by decide)
    (by simp only [mock_file_t.contents, store_vectors_same, List.length_replicate]; decide)
    (by simp only [List.length_replicate]) (by simp only [List.length_replicate])

/-! ## Resizing: `set_size_at_least` and `set_size` -/

theorem set_size_at_least_eq (self : mock_file_t) (w : World) (n : Int) (hn : 0 ≤ n)
    (hint : is_int64 n) :
    self.set_size_at_least n w
      = if (w.vectors self.data_).length < n.toNat then
          .returned (w.store self.data_ (resize (w.vectors self.data_) n.toNat 0)) ()
        else .returned w () := by
  have hu : to_uint64 n = n.toNat :=
    to_uint64_of_nonneg n hn (by unfold is_int64 at hint; omega)
  have hmax : n.toNat ≤ SIZE_MAX := by unfold is_int64 at hint; unfold SIZE_MAX; omega
  simp [mock_file_t.set_size_at_least, hu, hn, hmax]

theorem set_size_eq (self : mock_file_t) (w : World) (n : Int) (hn : 0 ≤ n)
    (hint : is_int64 n) :
    self.set_size n w
      = .returned (w.store self.data_ (resize (w.vectors self.data_) n.toNat 0)) () := by
  have hu : to_uint64 n = n.toNat :=
    to_uint64_of_nonneg n hn (by unfold is_int64 at hint; omega)
  have hmax : n.toNat ≤ SIZE_MAX := by unfold is_int64 at hint; unfold SIZE_MAX; omega
  simp [mock_file_t.set_size, hu, hn, hmax]

/-- C2: for a vector within the size a `std::vector` can have and every `n` with
`0 <= n` (every such `int64_t` is at most `SIZE_MAX`), `set_size_at_least(n)` returns;
afterwards `get_size()` is the maximum of the previous size and `n`, the size has not
decreased, every byte that existed keeps its value, every added byte is zero, and the
contents are the old contents followed by zeros. -/
theorem set_size_at_least_grows (self : mock_file_t) (w : World) (n : Int) (hn : 0 ≤ n)
    (hint : is_int64 n) (hold : (self.contents w).length ≤ PTRDIFF_MAX) :
    (self.set_size_at_least n w).succeeded = true ∧
    self.get_size (self.set_size_at_least n w).state = max (self.get_size w) n ∧
    self.get_size w ≤ self.get_size (self.set_size_at_least n w).state ∧
    (∀ i, i < (self.contents w).length →
      (self.contents (self.set_size_at_least n w).state)[i]? = (self.contents w)[i]?) ∧
    (∀ i, (self.contents w).length ≤ i →
      i < (self.contents (self.set_size_at_least n w).state).length →
      (self.contents (self.set_size_at_least n w).state)[i]? = some 0) ∧
    self.contents (self.set_size_at_least n w).state
      = self.contents w ++ List.replicate (n.toNat - (self.contents w).length) 0 := by
  have hnmax : n.toNat ≤ PTRDIFF_MAX := by unfold is_int64 at hint; unfold PTRDIFF_MAX; omega
  unfold mock_file_t.contents at hold
  rw [set_size_at_least_eq self w n hn hint]
  by_cases hlt : (w.vectors self.data_).length < n.toNat
  · simp only [hlt, if_true, Outcome.succeeded, Outcome.state, mock_file_t.get_size,
      mock_file_t.contents, store_vectors_same, resize_length, true_and]
    rw [to_int64_of_le _ hnmax, to_int64_of_le _ hold]
    refine ⟨by omega, by omega, ?_, ?_, ?_⟩
    · intro i hi
      exact resize_getElem?_old _ _ _ _ hi (by omega)
    · intro i hi hi2
      exact resize_getElem?_new _ _ _ _ hi hi2
    · exact resize_of_le _ _ _ (by omega)
  · simp only [hlt, if_false, Outcome.succeeded, Outcome.state, mock_file_t.get_size,
      mock_file_t.contents, true_and]
    rw [to_int64_of_le _ hold]
    have h0 : n.toNat - (w.vectors self.data_).length = 0 := by omega
    refine ⟨by omega, by omega, ?_, ?_, ?_⟩
    · intro i _
      trivial
    · intro i hi hi2
      omega
    · simp [h0]

/-- C2, witness: on an empty vector `set_size_at_least(4096)` gives size 4096, all bytes
zero. -/
theorem set_size_at_least_grows_witness :
    ((⟨mode_rw, 0⟩ : mock_file_t).set_size_at_least 4096 empty_world).succeeded = true ∧
    (⟨mode_rw, 0⟩ : mock_file_t).get_size
      ((⟨mode_rw, 0⟩ : mock_file_t).set_size_at_least 4096 empty_world).state = 4096 ∧
    (⟨mode_rw, 0⟩ : mock_file_t).contents
      ((⟨mode_rw, 0⟩ : mock_file_t).set_size_at_least 4096 empty_world).state
      = List.replicate 4096 0 :=
  have h := set_size_at_least_grows ⟨mode_rw, 0⟩ empty_world 4096 (by decide) (by decide)
    (by decide)
  ⟨h.1, h.2.1, h.2.2.2.2.2⟩

/-- C3: for every `n` with `0 <= n` (every such `int64_t` is at most `SIZE_MAX`),
`set_size(n)` returns; afterwards `get_size()` is exactly `n`, the first
`min(old size, n)` bytes are unchanged, every byte at an index from the old size on is
zero, there is no byte at an index `>= n`, and shrinking to `m` and then growing to
`n > m` leaves zeros in `[m, n)`. -/
theorem set_size_exact (self : mock_file_t) (w : World) (n : Int) (hn : 0 ≤ n)
    (hint : is_int64 n) :
    (self.set_size n w).succeeded = true ∧
    self.get_size (self.set_size n w).state = n ∧
    (∀ i, i < min (self.contents w).length n.toNat →
      (self.contents (self.set_size n w).state)[i]? = (self.contents w)[i]?) ∧
    (∀ i, (self.contents w).length ≤ i → i < n.toNat →
      (self.contents (self.set_size n w).state)[i]? = some 0) ∧
    (∀ i, n.toNat ≤ i → (self.contents (self.set_size n w).state)[i]? = none) ∧
    (∀ m : Int, 0 ≤ m → m < n → ∀ i, m.toNat ≤ i → i < n.toNat →
      (self.contents (self.set_size n (self.set_size m w).state).state)[i]? = some 0) := by
  have hnmax : n.toNat ≤ PTRDIFF_MAX := by unfold is_int64 at hint; unfold PTRDIFF_MAX; omega
  rw [set_size_eq self w n hn hint]
  simp only [Outcome.succeeded, Outcome.state, mock_file_t.get_size, mock_file_t.contents,
    store_vectors_same, resize_length, true_and]
  rw [to_int64_of_le _ hnmax]
  refine ⟨by omega, ?_, ?_, ?_, ?_⟩
  · intro i hi
    exact resize_getElem?_old _ _ _ _ (by omega) (by omega)
  · intro i hi hi2
    exact resize_getElem?_new _ _ _ _ hi hi2
  · intro i hi
    exact List.getElem?_eq_none (by rw [resize_length]; exact hi)
  · intro m hm hmn i hi hi2
    have hmint : is_int64 m := by unfold is_int64 at *; omega
    rw [set_size_eq self w m hm hmint, set_size_eq self _ n hn hint]
    simp only [Outcome.state, store_vectors_same]
    exact resize_getElem?_new _ _ _ _ (by rw [resize_length]; exact hi) hi2

/-- C3, witness: on the vector `[1, 2, 3, 4]`, `set_size(4)` keeps size 4, and after
`set_size(2)` followed by `set_size(4)` the byte at index 3 is zero, not 4. -/
theorem set_size_exact_witness :
    ((⟨mode_rw, 0⟩ : mock_file_t).set_size 4 (empty_world.store 0 [1, 2, 3, 4])).succeeded
      = true ∧
    (⟨mode_rw, 0⟩ : mock_file_t).get_size
      ((⟨mode_rw, 0⟩ : mock_file_t).set_size 4 (empty_world.store 0 [1, 2, 3, 4])).state
      = 4 ∧
    ((⟨mode_rw, 0⟩ : mock_file_t).contents
      ((⟨mode_rw, 0⟩ : mock_file_t).set_size 4
        ((⟨mode_rw, 0⟩ : mock_file_t).set_size 2
          (empty_world.store 0 [1, 2, 3, 4])).state).state)[3]? = some 0 :=
  have h := set_size_exact ⟨mode_rw, 0⟩ (empty_world.store 0 [1, 2, 3, 4]) 4 (by decide)
    (by decide)
  ⟨h.1, h.2.1, h.2.2.2.2.2 2 (by decide) (by decide) 3 (by decide) (by decide)⟩

/-- C4: `set_size(n)` and `set_size_at_least(n)` fail exactly when `n` is negative or `n`
read as an unsigned 64-bit value exceeds `SIZE_MAX`; each call either returns or ends
fatally in the unchanged world (nothing is resized). -/
theorem set_size_fails_iff (self : mock_file_t) (w : World) (n : Int) :
    ((self.set_size n w).succeeded = false ↔ (n < 0 ∨ SIZE_MAX < to_uint64 n)) ∧
    ((self.set_size_at_least n w).succeeded = false ↔ (n < 0 ∨ SIZE_MAX < to_uint64 n)) ∧
    ((self.set_size n w).succeeded = true ∨ self.set_size n w = .fatal w) ∧
    ((self.set_size_at_least n w).succeeded = true
      ∨ self.set_size_at_least n w = .fatal w) := by
  unfold mock_file_t.set_size mock_file_t.set_size_at_least
  by_cases hc : n < 0 ∨ SIZE_MAX < to_uint64 n
  · have hb : (decide (0 ≤ n) && decide (to_uint64 n ≤ SIZE_MAX)) = false := by
      simp only [Bool.and_eq_false_iff, decide_eq_false_iff_not]
      omega
    simp [hb, Outcome.succeeded, hc]
  · have hb : (decide (0 ≤ n) && decide (to_uint64 n ≤ SIZE_MAX)) = true := by
      simp only [Bool.and_eq_true, decide_eq_true_eq]
      omega
    simp only [hb, if_true, hc, iff_false]
    refine ⟨?_, ?_, Or.inl rfl, ?_⟩
    · simp [Outcome.succeeded]
    · split <;> simp [Outcome.succeeded]
    · split <;> exact Or.inl rfl

/-! ## The checks of `read_async` and `write_async` -/

/-- C5: `read_async` on a file whose mode lacks the read flag, and `write_async` on a file
whose mode lacks the write flag, end fatally whatever the verifier, offset, length, block
and callback are, in the unchanged world (no byte of any vector changed, no completion
posted); read-only and write-only files can be constructed, a file of mode 0 cannot. -/
theorem mode_gating (verify : Nat → Int → Nat → Nat → Bool) (data : Nat) (other : Bool)
    (w : World) (offset : Int) (length : Nat) (buf : mem_block) (cb : Nat) :
    (⟨⟨false, other⟩, data⟩ : mock_file_t).read_async verify offset length buf cb w
      = .fatal w ∧
    (⟨⟨other, false⟩, data⟩ : mock_file_t).write_async verify offset length buf cb w
      = .fatal w ∧
    mock_file_t.ctor mode_write (some data) = some ⟨mode_write, data⟩ ∧
    mock_file_t.ctor mode_read (some data) = some ⟨mode_read, data⟩ ∧
    mock_file_t.ctor ⟨false, false⟩ (some data) = none := by
  refine ⟨?_, ?_, rfl, rfl, rfl⟩
  · simp [mock_file_t.read_async]
  · simp [mock_file_t.write_async]

/-- C6: for an `int64_t` offset, a `size_t` length and a `size_t` size, the bounds guard
passes exactly when `0 <= offset` and `offset + length <= size` as unbounded integers;
a pair whose unbounded sum reaches `2^64` is rejected; when the guard passes, every index
of the accessed range `[offset, offset + length)` is inside the vector; and a
`read_async` or `write_async` returns exactly when its mode flag is set, the verifier
accepts and the unbounded condition holds. -/
theorem bounds_guard_exact (verify : Nat → Int → Nat → Nat → Bool) (self : mock_file_t)
    (w : World) (offset : Int) (length : Nat) (buf : mem_block) (cb : Nat)
    (hoff : is_int64 offset) (hlen : is_size_t length)
    (hsize : is_size_t (self.contents w).length) :
    (bounds_guard offset length (self.contents w).length = true
      ↔ (0 ≤ offset ∧ offset + length ≤ (self.contents w).length)) ∧
    ((2 : Int) ^ 64 ≤ offset + length →
      bounds_guard offset length (self.contents w).length = false) ∧
    (bounds_guard offset length (self.contents w).length = true →
      ∀ i : Nat, to_uint64 offset ≤ i → i < to_uint64 offset + length →
        i < (self.contents w).length) ∧
    ((self.read_async verify offset length buf cb w).succeeded = true
      ↔ (self.mode_.read = true
          ∧ verify (self.contents w).length offset length buf.addr = true
          ∧ 0 ≤ offset ∧ offset + length ≤ (self.contents w).length)) ∧
    ((self.write_async verify offset length buf cb w).succeeded = true
      ↔ (self.mode_.write = true
          ∧ verify (self.contents w).length offset length buf.addr = true
          ∧ 0 ≤ offset ∧ offset + length ≤ (self.contents w).length)) := by
  have hiff := bounds_guard_iff offset length _ hoff hlen hsize
  unfold mock_file_t.contents at *
  refine ⟨hiff, ?_, ?_, ?_, ?_⟩
  · intro hwrap
    cases hg : bounds_guard offset length (w.vectors self.data_).length with
    | false => rfl
    | true =>
      have := hiff.1 hg
      unfold is_size_t SIZE_MAX at hsize
      omega
  · intro hg i hi1 hi2
    have h := hiff.1 hg
    have hu : to_uint64 offset = offset.toNat :=
      to_uint64_of_nonneg offset h.1 (by unfold is_int64 at hoff; omega)
    omega
  · rw [← hiff]
    unfold mock_file_t.read_async
    cases self.mode_.read <;>
      cases verify (w.vectors self.data_).length offset length buf.addr <;>
      cases bounds_guard offset length (w.vectors self.data_).length <;>
      simp [Outcome.succeeded]
  · rw [← hiff]
    unfold mock_file_t.write_async
    cases self.mode_.write <;>
      cases verify (w.vectors self.data_).length offset length buf.addr <;>
      cases bounds_guard offset length (w.vectors self.data_).length <;>
      simp [Outcome.succeeded]

/-- C6, witness: offset 4 and length 96 on a vector of 100 bytes. -/
theorem bounds_guard_exact_witness :
    bounds_guard 4 96 ((⟨mode_rw, 0⟩ : mock_file_t).contents
        (empty_world.store 0 (List.replicate 100 0))).length = true
      ↔ ((0 : Int) ≤ 4 ∧ (4 : Int) + (96 : Nat)
          ≤ ((⟨mode_rw, 0⟩ : mock_file_t).contents
              (empty_world.store 0 (List.replicate 100 0))).length) :=
  (bounds_guard_exact (fun _ _ _ _ => true) ⟨mode_rw, 0⟩
    (empty_world.store 0 (List.replicate 100 0)) 4 96 ⟨0, []⟩ 0 (by decide) (by decide)
    (by simp only [mock_file_t.contents, store_vectors_same, List.length_replicate]
        decide)).1

/-- C7: a `read_async` (on a file with the read flag) or `write_async` (on a file with
the write flag) that passes the alignment and bounds checks returns with the byte copy
done, the set of run callbacks unchanged (the callback has not run, a flag it sets is as
before) and exactly the callback appended to the scheduler's pending set; the callback
has run after the next turn of the scheduler. -/
theorem deferred_completion (verify : Nat → Int → Nat → Nat → Bool) (data : Nat)
    (other : Bool) (w : World) (offset : Int) (length : Nat) (buf : mem_block) (cb : Nat)
    (hv : verify (w.vectors data).length offset length buf.addr = true)
    (hg : bounds_guard offset length (w.vectors data).length = true) :
    ((⟨⟨true, other⟩, data⟩ : mock_file_t).read_async verify offset length buf cb w
      = .returned ⟨w.vectors, w.pending ++ [cb], w.completed⟩
          (memcpy buf.bytes 0 (w.vectors data) (to_uint64 offset) length)) ∧
    ((⟨⟨other, true⟩, data⟩ : mock_file_t).write_async verify offset length buf cb w
      = .returned ⟨(w.store data
            (memcpy (w.vectors data) (to_uint64 offset) buf.bytes 0 length)).vectors,
          w.pending ++ [cb], w.completed⟩ ()) ∧
    ((⟨⟨true, other⟩, data⟩ : mock_file_t).read_async verify offset length buf cb
        w).state.completed = w.completed ∧
    ((⟨⟨other, true⟩, data⟩ : mock_file_t).write_async verify offset length buf cb
        w).state.completed = w.completed ∧
    ((⟨⟨true, other⟩, data⟩ : mock_file_t).read_async verify offset length buf cb
        w).state.pending.count cb = w.pending.count cb + 1 ∧
    ((⟨⟨other, true⟩, data⟩ : mock_file_t).write_async verify offset length buf cb
        w).state.pending.count cb = w.pending.count cb + 1 ∧
    cb ∈ (scheduler_turn ((⟨⟨true, other⟩, data⟩ : mock_file_t).read_async verify offset
        length buf cb w).state).completed ∧
    cb ∈ (scheduler_turn ((⟨⟨other, true⟩, data⟩ : mock_file_t).write_async verify offset
        length buf cb w).state).completed := by
  have hr : (⟨⟨true, other⟩, data⟩ : mock_file_t).read_async verify offset length buf cb w
      = .returned ⟨w.vectors, w.pending ++ [cb], w.completed⟩
          (memcpy buf.bytes 0 (w.vectors data) (to_uint64 offset) length) := by
    simp [mock_file_t.read_async, hv, hg, spawn_sometime]
  have hw : (⟨⟨other, true⟩, data⟩ : mock_file_t).write_async verify offset length buf cb w
      = .returned ⟨(w.store data
            (memcpy (w.vectors data) (to_uint64 offset) buf.bytes 0 length)).vectors,
          w.pending ++ [cb], w.completed⟩ () := by
    simp [mock_file_t.write_async, hv, hg, spawn_sometime, World.store]
  rw [hr, hw]
  simp [Outcome.state, scheduler_turn]

/-- C7, witness: a read of 2 bytes at offset 1 of the vector `[1, 2, 3, 4]` with callback
7, no callback pending and none run. -/
theorem deferred_completion_witness :
    ((⟨⟨true, false⟩, 0⟩ : mock_file_t).read_async (fun _ _ _ _ => true) 1 2 ⟨0, [0, 0]⟩ 7
        (empty_world.store 0 [1, 2, 3, 4])).state.completed = [] ∧
    ((⟨⟨true, false⟩, 0⟩ : mock_file_t).read_async (fun _ _ _ _ => true) 1 2 ⟨0, [0, 0]⟩ 7
        (empty_world.store 0 [1, 2, 3, 4])).state.pending.count 7 = 1 :=
  have h := deferred_completion (fun _ _ _ _ => true) 0 false
    (empty_world.store 0 [1, 2, 3, 4]) 1 2 ⟨0, [0, 0]⟩ 7 rfl (by decide)
  ⟨h.2.2.1, h.2.2.2.2.1⟩

/-! ## The lifecycle of the opener -/

theorem opener_create_eq (a : Nat) (s : file_existence_state_t) :
    (⟨a, s⟩ : mock_file_opener_t).open_serializer_file_create_temporary
      = if s = .no_file then .returned ⟨a, .temporary_file⟩ ⟨mode_rw, a⟩
        else .fatal ⟨a, s⟩ := by
  cases s <;> rfl

theorem opener_move_eq (a : Nat) (s : file_existence_state_t) :
    (⟨a, s⟩ : mock_file_opener_t).move_serializer_file_to_permanent_location
      = if s = .temporary_file then .returned ⟨a, .permanent_file⟩ ()
        else .fatal ⟨a, s⟩ := by
  cases s <;> rfl

theorem opener_existing_eq (a : Nat) (s : file_existence_state_t) :
    (⟨a, s⟩ : mock_file_opener_t).open_serializer_file_existing
      = if s = .temporary_file ∨ s = .permanent_file then .returned ⟨a, s⟩ ⟨mode_rw, a⟩
        else .fatal ⟨a, s⟩ := by
  cases s <;> rfl

theorem opener_unlink_eq (a : Nat) (s : file_existence_state_t) :
    (⟨a, s⟩ : mock_file_opener_t).unlink_serializer_file
      = if s = .temporary_file ∨ s = .permanent_file then .returned ⟨a, .unlinked_file⟩ ()
        else .fatal ⟨a, s⟩ := by
  cases s <;> rfl

/-- C8: for every opener and operation the step function of the code gives the state the
transition table gives, and fails where the table has no entry; in detail,
`open_create_temporary` returns iff the state is `no_file` and then the state is
`temporary_file`, `move_to_permanent` returns iff the state is `temporary_file` and then
it is `permanent_file`, `open_existing` returns iff the state is `temporary_file` or
`permanent_file` and leaves it unchanged, `unlink` returns iff the state is
`temporary_file` or `permanent_file` and then it is `unlinked_file`; a failed call leaves
the state as it was. -/
theorem opener_step_table (self : mock_file_opener_t) :
    (∀ op, self.step_state op = spec_transition self.file_existence_state_ op) ∧
    ((self.open_serializer_file_create_temporary.succeeded = true
        ↔ self.file_existence_state_ = .no_file) ∧
      self.open_serializer_file_create_temporary.state.file_existence_state_
        = if self.file_existence_state_ = .no_file then .temporary_file
          else self.file_existence_state_) ∧
    ((self.move_serializer_file_to_permanent_location.succeeded = true
        ↔ self.file_existence_state_ = .temporary_file) ∧
      self.move_serializer_file_to_permanent_location.state.file_existence_state_
        = if self.file_existence_state_ = .temporary_file then .permanent_file
          else self.file_existence_state_) ∧
    ((self.open_serializer_file_existing.succeeded = true
        ↔ (self.file_existence_state_ = .temporary_file
            ∨ self.file_existence_state_ = .permanent_file)) ∧
      self.open_serializer_file_existing.state.file_existence_state_
        = self.file_existence_state_) ∧
    ((self.unlink_serializer_file.succeeded = true
        ↔ (self.file_existence_state_ = .temporary_file
            ∨ self.file_existence_state_ = .permanent_file)) ∧
      self.unlink_serializer_file.state.file_existence_state_
        = if self.file_existence_state_ = .temporary_file
            ∨ self.file_existence_state_ = .permanent_file then .unlinked_file
          else self.file_existence_state_) := by
  obtain ⟨a, s⟩ := self
  refine ⟨?_, ?_, ?_, ?_, ?_⟩
  · intro op
    cases s <;> cases op <;> rfl
  all_goals cases s <;> simp [opener_create_eq, opener_move_eq, opener_existing_eq,
    opener_unlink_eq, Outcome.succeeded, Outcome.state]

/-- C9: on a freshly constructed opener (state `no_file`), `open_create_temporary`
followed by `unlink` both return and end in `unlinked_file`; `unlink` as the first
operation fails; `open_existing` as the first operation fails; and in the state after any
`unlink` that returned, `move_to_permanent` and every other lifecycle operation fails and
leaves the state `unlinked_file`. -/
theorem opener_lifecycle_ordering (a : Nat) :
    ((⟨a, .no_file⟩ : mock_file_opener_t).open_serializer_file_create_temporary.succeeded
        = true ∧
      ((⟨a, .no_file⟩ : mock_file_opener_t).open_serializer_file_create_temporary.state
        ).unlink_serializer_file.succeeded = true ∧
      ((⟨a, .no_file⟩ : mock_file_opener_t).open_serializer_file_create_temporary.state
        ).unlink_serializer_file.state.file_existence_state_ = .unlinked_file) ∧
    (⟨a, .no_file⟩ : mock_file_opener_t).unlink_serializer_file = .fatal ⟨a, .no_file⟩ ∧
    (⟨a, .no_file⟩ : mock_file_opener_t).open_serializer_file_existing
      = .fatal ⟨a, .no_file⟩ ∧
    (∀ o : mock_file_opener_t, o.unlink_serializer_file.succeeded = true →
      o.unlink_serializer_file.state.move_serializer_file_to_permanent_location
        = .fatal o.unlink_serializer_file.state ∧
      (∀ op, o.unlink_serializer_file.state.step op = .fatal o.unlink_serializer_file.state) ∧
      o.unlink_serializer_file.state.file_existence_state_ = .unlinked_file) := by
  refine ⟨⟨rfl, rfl, rfl⟩, rfl, rfl, ?_⟩
  rintro ⟨b, s⟩ h
  cases s
  · simp [opener_unlink_eq, Outcome.succeeded] at h
  · refine ⟨rfl, ?_, rfl⟩
    intro op; cases op <;> rfl
  · refine ⟨rfl, ?_, rfl⟩
    intro op; cases op <;> rfl
  · simp [opener_unlink_eq, Outcome.succeeded] at h

/-! ## The handles of one opener -/

theorem set_size_get_size_shared (f g : mock_file_t) (hfg : g.data_ = f.data_) (w : World)
    (n : Int) (hn : 0 ≤ n) (hint : is_int64 n) :
    g.get_size (f.set_size n w).state = n := by
  have hnmax : n.toNat ≤ PTRDIFF_MAX := by unfold is_int64 at hint; unfold PTRDIFF_MAX; omega
  rw [set_size_eq f w n hn hint]
  simp only [Outcome.state, mock_file_t.get_size, hfg, store_vectors_same, resize_length]
  rw [to_int64_of_le _ hnmax]
  omega

/-- C10: for every fresh opener, `open_create_temporary`, then optionally
`move_to_permanent`, then `open_existing` all return; the two files handed out have mode
read+write and hold the address of the opener's one vector, so they report the same
`get_size()`, the bytes written with `write_async` through either are what `read_async`
returns through the other, and a `set_size(n)` through either is the `get_size()` of
the other; a following `unlink` returns and `move_to_permanent` after it fails. -/
theorem handles_share_buffer (o : mock_file_opener_t) (promote : Bool)
    (hfresh : o.file_existence_state_ = .no_file) :
    ∃ (h1 h2 : mock_file_t) (o1 o2 : mock_file_opener_t),
      o.open_serializer_file_create_temporary = .returned o1 h1 ∧
      (if promote then o1.move_serializer_file_to_permanent_location else .returned o1 ())
        = .returned o2 () ∧
      o2.open_serializer_file_existing = .returned o2 h2 ∧
      h1.mode_ = mode_rw ∧ h2.mode_ = mode_rw ∧
      h1.data_ = o.file_ ∧ h2.data_ = o.file_ ∧
      (∀ w, h1.get_size w = h2.get_size w) ∧
      (∀ (verify : Nat → Int → Nat → Nat → Bool) (w : World) (offset : Int) (length : Nat)
          (src out : mem_block) (cb1 cb2 : Nat),
        is_int64 offset → is_size_t length → is_size_t (w.vectors o.file_).length →
        verify (w.vectors o.file_).length offset length src.addr = true →
        verify (w.vectors o.file_).length offset length out.addr = true →
        0 ≤ offset → offset + length ≤ (w.vectors o.file_).length →
        src.bytes.length = length → out.bytes.length = length →
        (h2.read_async verify offset length out cb2
            (h1.write_async verify offset length src cb1 w).state).result = some src.bytes ∧
        (h1.read_async verify offset length out cb2
            (h2.write_async verify offset length src cb1 w).state).result = some src.bytes) ∧
      (∀ (w : World) (n : Int), 0 ≤ n → is_int64 n →
        h2.get_size (h1.set_size n w).state = n ∧ h1.get_size (h2.set_size n w).state = n) ∧
      o2.unlink_serializer_file.succeeded = true ∧
      o2.unlink_serializer_file.state.move_serializer_file_to_permanent_location.succeeded
        = false := by
  obtain ⟨a, s⟩ := o
  simp only at hfresh
  subst hfresh
  refine ⟨⟨mode_rw, a⟩, ⟨mode_rw, a⟩, ⟨a, .temporary_file⟩,
    ⟨a, if promote then .permanent_file else .temporary_file⟩, rfl, ?_, ?_, rfl, rfl, rfl,
    rfl, fun _ => rfl, ?_, ?_, ?_, ?_⟩
  · cases promote <;> rfl
  · cases promote <;> rfl
  · intro verify w offset length src out cb1 cb2 hoff hlen hsize hvw hvr hlo hhi hsrc hout
    exact ⟨(write_async_read_async_shared verify ⟨mode_rw, a⟩ ⟨mode_rw, a⟩ w offset length
        src out cb1 cb2 rfl rfl rfl hoff hlen hsize hvw hvr hlo hhi hsrc hout).2.2,
      (write_async_read_async_shared verify ⟨mode_rw, a⟩ ⟨mode_rw, a⟩ w offset length
        src out cb1 cb2 rfl rfl rfl hoff hlen hsize hvw hvr hlo hhi hsrc hout).2.2⟩
  · intro w n hn hint
    exact ⟨set_size_get_size_shared _ _ rfl w n hn hint,
      set_size_get_size_shared _ _ rfl w n hn hint⟩
  · cases promote <;> rfl
  · cases promote <;> rfl

/-- C10, witness: the opener whose vector is at address 0, promoted to permanent: both
files hold address 0 with mode read+write. -/
theorem handles_share_buffer_witness :
    ∃ h1 h2 : mock_file_t,
      (⟨0, .no_file⟩ : mock_file_opener_t).open_serializer_file_create_temporary.result
        = some h1 ∧
      (⟨0, .permanent_file⟩ : mock_file_opener_t).open_serializer_file_existing.result
        = some h2 ∧
      h1.data_ = 0 ∧ h2.data_ = 0 ∧ h1.mode_ = mode_rw ∧ h2.mode_ = mode_rw :=
  match handles_share_buffer ⟨0, .no_file⟩ true rfl with
  | ⟨h1, h2, _, _, _, _, _, hm1, hm2, hd1, hd2, _⟩ =>
    ⟨⟨h1.mode_, h1.data_⟩, ⟨h2.mode_, h2.data_⟩, by rw [hm1, hd1]; rfl,
      by rw [hm2, hd2]; rfl, hd1, hd2, hm1, hm2⟩

/-! ## The blocking calls of `mock_semantic_checking_file_t` -/

theorem store_store (w : World) (a : Nat) (u v : List Byte) :
    (w.store a u).store a v = w.store a v := by
  unfold World.store
  congr 1
  funext b
  by_cases h : b = a <;> simp [h]

theorem usub64_of_le (s p : Nat) (hp : p ≤ s) (hs : is_size_t s) : usub64 s p = s - p := by
  unfold is_size_t SIZE_MAX at hs
  unfold usub64
  omega

theorem uadd64_of_le (a b : Nat) (h : a + b ≤ SIZE_MAX) : uadd64 a b = a + b := by
  unfold SIZE_MAX at h
  unfold uadd64
  omega

theorem semantic_blocking_read_eq (self : mock_semantic_checking_file_t) (w : World)
    (buf : mem_block) (n : Nat) (hp : self.pos_ ≤ (w.vectors self.data_).length)
    (hs : is_size_t (w.vectors self.data_).length) :
    self.semantic_blocking_read buf n w
      = ⟨⟨self.pos_ + min ((w.vectors self.data_).length - self.pos_) n, self.data_⟩, w,
          ((w.vectors self.data_).drop self.pos_).take
              (min ((w.vectors self.data_).length - self.pos_) n)
            ++ buf.bytes.drop (min ((w.vectors self.data_).length - self.pos_) n),
          min ((w.vectors self.data_).length - self.pos_) n⟩ := by
  have hk : self.pos_ + min ((w.vectors self.data_).length - self.pos_) n ≤ SIZE_MAX := by
    unfold is_size_t at hs; omega
  simp only [mock_semantic_checking_file_t.semantic_blocking_read, usub64_of_le _ _ hp hs,
    uadd64_of_le _ _ hk, memcpy, List.take_zero, List.nil_append, Nat.zero_add]

theorem semantic_blocking_write_eq (self : mock_semantic_checking_file_t) (w : World)
    (buf : mem_block) (n : Nat) (hp : self.pos_ ≤ (w.vectors self.data_).length)
    (hsrc : buf.bytes.length = n) (hno : self.pos_ + n ≤ SIZE_MAX) :
    self.semantic_blocking_write buf n w
      = ⟨⟨self.pos_ + n, self.data_⟩,
          w.store self.data_ ((w.vectors self.data_).take self.pos_ ++ buf.bytes
            ++ (w.vectors self.data_).drop (self.pos_ + n)),
          buf.bytes, n⟩ := by
  have htake : buf.bytes.take n = buf.bytes := List.take_of_length_le (by omega)
  simp only [mock_semantic_checking_file_t.semantic_blocking_write, uadd64_of_le _ _ hno]
  by_cases hlt : (w.vectors self.data_).length < self.pos_ + n
  · simp only [hlt, if_true, store_vectors_same, store_store, memcpy, List.drop_zero, htake]
    rw [resize_of_le _ _ _ (by omega), List.take_append_of_le_length hp,
      List.drop_of_length_le (by simp; omega), List.drop_of_length_le (by omega)]
  · simp only [hlt, if_false, memcpy, List.drop_zero, htake]

/-- C11: with the cursor `p` at most the buffer size `s` (a `size_t`), a
`semantic_blocking_read` asking for `n` bytes returns `k = min(n, s - p)`, leaves in the
first `k` bytes of the caller's block the buffer bytes `[p, p + k)` and the rest of the
block as it was, advances the cursor to `p + k`, and leaves the world (the buffer)
unchanged; a request for more than remains returns the `s - p` bytes that remain. -/
theorem semantic_blocking_read_spec (self : mock_semantic_checking_file_t) (w : World)
    (buf : mem_block) (n : Nat) (hp : self.pos_ ≤ self.size w)
    (hs : is_size_t (self.size w)) :
    (self.semantic_blocking_read buf n w).ret = min n (self.size w - self.pos_) ∧
    (self.semantic_blocking_read buf n w).buf.take (self.semantic_blocking_read buf n w).ret
      = ((w.vectors self.data_).drop self.pos_).take
          (self.semantic_blocking_read buf n w).ret ∧
    (∀ i, i < (self.semantic_blocking_read buf n w).ret →
      (self.semantic_blocking_read buf n w).buf[i]? = (w.vectors self.data_)[self.pos_ + i]?) ∧
    (self.semantic_blocking_read buf n w).buf.drop (self.semantic_blocking_read buf n w).ret
      = buf.bytes.drop (self.semantic_blocking_read buf n w).ret ∧
    (self.semantic_blocking_read buf n w).file.pos_
      = self.pos_ + (self.semantic_blocking_read buf n w).ret ∧
    (self.semantic_blocking_read buf n w).file.data_ = self.data_ ∧
    (self.semantic_blocking_read buf n w).world = w ∧
    (self.size w - self.pos_ < n →
      (self.semantic_blocking_read buf n w).ret = self.size w - self.pos_) := by
  unfold mock_semantic_checking_file_t.size at hp hs ⊢
  rw [semantic_blocking_read_eq self w buf n hp hs]
  simp only
  have hlen : (((w.vectors self.data_).drop self.pos_).take
      (min ((w.vectors self.data_).length - self.pos_) n)).length
      = min ((w.vectors self.data_).length - self.pos_) n := by
    simp
  refine ⟨Nat.min_comm _ _, ?_, ?_, ?_, trivial, trivial, trivial, ?_⟩
  · rw [List.take_append_of_le_length (by omega), List.take_of_length_le (by omega)]
  · intro i hi
    rw [List.getElem?_append_left (by omega), List.getElem?_take_of_lt hi, List.getElem?_drop]
  · rw [List.drop_append_of_le_length (by omega), List.drop_of_length_le (by omega)]
    simp
  · intro h
    omega
/-- C11, witness: cursor 1 on the vector `[1, 2, 3, 4]`, a request for 10 bytes returns
3 and moves the cursor to 4. -/
theorem semantic_blocking_read_spec_witness :
    ((⟨1, 0⟩ : mock_semantic_checking_file_t).semantic_blocking_read
        ⟨0, List.replicate 10 9⟩ 10 (empty_world.store 0 [1, 2, 3, 4])).ret = 3 ∧
    ((⟨1, 0⟩ : mock_semantic_checking_file_t).semantic_blocking_read
        ⟨0, List.replicate 10 9⟩ 10 (empty_world.store 0 [1, 2, 3, 4])).file.pos_
      = 1 + ((⟨1, 0⟩ : mock_semantic_checking_file_t).semantic_blocking_read
        ⟨0, List.replicate 10 9⟩ 10 (empty_world.store 0 [1, 2, 3, 4])).ret :=
  have h := semantic_blocking_read_spec ⟨1, 0⟩ (empty_world.store 0 [1, 2, 3, 4])
    ⟨0, List.replicate 10 9⟩ 10 (by decide) (by decide)
  ⟨h.1, h.2.2.2.2.1⟩

/-- C12: with the cursor `p` at most the buffer size `s`, a block `src` of `n` bytes and
`p + n` within `size_t`, `semantic_blocking_write` returns `n`, leaves the buffer with
size `max(s, p + n)`, with bytes `[p, p + n)` equal to `src`, with bytes `[0, p)` and the
bytes at indices `>= p + n` unchanged, and advances the cursor to `p + n`. -/
theorem semantic_blocking_write_spec (self : mock_semantic_checking_file_t) (w : World)
    (src : mem_block) (n : Nat) (hp : self.pos_ ≤ self.size w)
    (hsrc : src.bytes.length = n) (hno : self.pos_ + n ≤ SIZE_MAX) :
    (self.semantic_blocking_write src n w).ret = n ∧
    (self.semantic_blocking_write src n w).file.size (self.semantic_blocking_write src n w).world
      = max (self.size w) (self.pos_ + n) ∧
    (((self.semantic_blocking_write src n w).world.vectors self.data_).drop self.pos_).take n
      = src.bytes ∧
    ((self.semantic_blocking_write src n w).world.vectors self.data_).take self.pos_
      = (w.vectors self.data_).take self.pos_ ∧
    (∀ i, self.pos_ + n ≤ i →
      ((self.semantic_blocking_write src n w).world.vectors self.data_)[i]?
        = (w.vectors self.data_)[i]?) ∧
    (self.semantic_blocking_write src n w).file.pos_ = self.pos_ + n ∧
    (self.semantic_blocking_write src n w).file.data_ = self.data_ := by
  unfold mock_semantic_checking_file_t.size at hp ⊢
  rw [semantic_blocking_write_eq self w src n hp hsrc hno]
  simp only [store_vectors_same]
  have hlt : ((w.vectors self.data_).take self.pos_).length = self.pos_ := by
    simp; omega
  refine ⟨trivial, ?_, ?_, ?_, ?_, trivial, trivial⟩
  · simp only [List.length_append, List.length_take, List.length_drop, hsrc]
    omega
  · rw [List.append_assoc, List.drop_append_of_le_length (by omega),
      List.drop_of_length_le (by omega), List.nil_append,
      List.take_append_of_le_length (by omega), List.take_of_length_le (by omega)]
  · rw [List.append_assoc, List.take_append_of_le_length (by omega),
      List.take_of_length_le (by omega)]
  · intro i hi
    rw [List.getElem?_append_right (by simp only [List.length_append, hlt, hsrc]; omega)]
    simp only [List.length_append, hlt, hsrc, List.getElem?_drop]
    congr 1
    omega

/-- C12, witness: cursor 2 on the vector `[1, 2, 3, 4]`, writing `[7, 8, 9]` gives
`[1, 2, 7, 8, 9]` and cursor 5. -/
theorem semantic_blocking_write_spec_witness :
    ((⟨2, 0⟩ : mock_semantic_checking_file_t).semantic_blocking_write ⟨0, [7, 8, 9]⟩ 3
        (empty_world.store 0 [1, 2, 3, 4])).ret = 3 ∧
    ((⟨2, 0⟩ : mock_semantic_checking_file_t).semantic_blocking_write ⟨0, [7, 8, 9]⟩ 3
        (empty_world.store 0 [1, 2, 3, 4])).file.pos_ = 5 ∧
    ((⟨2, 0⟩ : mock_semantic_checking_file_t).semantic_blocking_write ⟨0, [7, 8, 9]⟩ 3
        (empty_world.store 0 [1, 2, 3, 4])).file.size
      ((⟨2, 0⟩ : mock_semantic_checking_file_t).semantic_blocking_write ⟨0, [7, 8, 9]⟩ 3
        (empty_world.store 0 [1, 2, 3, 4])).world = 5 :=
  have h := semantic_blocking_write_spec ⟨2, 0⟩ (empty_world.store 0 [1, 2, 3, 4])
    ⟨0, [7, 8, 9]⟩ 3 (by decide) rfl (by decide)
  ⟨h.1, h.2.2.2.2.2.1, h.2.1⟩

/-! ## Streams of blocking calls -/

theorem store_self (w : World) (a : Nat) : w.store a (w.vectors a) = w := by
  unfold World.store
  cases w with
  | mk vectors pending completed =>
    simp only [World.mk.injEq, and_true]
    funext b
    by_cases h : b = a <;> simp [h]

theorem all_bytes_cons (b : mem_block) (bs : List mem_block) :
    all_bytes (b :: bs) = b.bytes ++ all_bytes bs := rfl

theorem total_length_cons (b : mem_block) (bs : List mem_block) :
    total_length (b :: bs) = b.bytes.length + total_length bs := rfl

theorem all_bytes_length (bs : List mem_block) : (all_bytes bs).length = total_length bs := by
  induction bs with
  | nil => rfl
  | cons b bs ih => simp [all_bytes_cons, total_length_cons, ih]

theorem blocking_writes_eq (chunks : List mem_block) (f : mock_semantic_checking_file_t)
    (w : World) (hp : f.pos_ = (w.vectors f.data_).length)
    (hno : f.pos_ + total_length chunks ≤ SIZE_MAX) :
    blocking_writes f w chunks
      = (⟨f.pos_ + total_length chunks, f.data_⟩,
          w.store f.data_ (w.vectors f.data_ ++ all_bytes chunks)) := by
  induction chunks generalizing f w with
  | nil =>
    simp [blocking_writes, total_length, all_bytes, store_self]
  | cons c cs ih =>
    rw [total_length_cons] at hno
    have hw := semantic_blocking_write_eq f w c c.bytes.length (by omega) rfl (by omega)
    rw [hp, List.take_length, List.drop_of_length_le (by omega), List.append_nil] at hw
    unfold blocking_writes
    rw [hw]
    simp only
    rw [ih _ _ (by simp [store_vectors_same]) (by simp only; omega)]
    simp only [store_vectors_same, store_store, total_length_cons, all_bytes_cons,
      List.append_assoc, hp, Nat.add_assoc]

theorem blocking_reads_eq (bs : List mem_block) (f : mock_semantic_checking_file_t)
    (w : World) (hp : f.pos_ ≤ (w.vectors f.data_).length)
    (hs : is_size_t (w.vectors f.data_).length) :
    (blocking_reads f w bs).2.2.flatten
      = ((w.vectors f.data_).drop f.pos_).take (total_length bs) ∧
    (blocking_reads f w bs).2.1 = w := by
  induction bs generalizing f with
  | nil => simp [blocking_reads, total_length]
  | cons b bs ih =>
    have hr := semantic_blocking_read_eq f w b b.bytes.length hp hs
    unfold blocking_reads
    simp only [hr, List.flatten_cons, total_length_cons]
    have hk : (((w.vectors f.data_).drop f.pos_).take
        (min ((w.vectors f.data_).length - f.pos_) b.bytes.length)).length
        = min ((w.vectors f.data_).length - f.pos_) b.bytes.length := by
      simp
    have ih1 := ih ⟨f.pos_ + min ((w.vectors f.data_).length - f.pos_) b.bytes.length,
      f.data_⟩ (by simp only; omega) hs
    simp only at ih1
    rw [ih1.1, ih1.2, List.take_append_of_le_length (by omega),
      List.take_of_length_le (by omega)]
    refine ⟨?_, rfl⟩
    by_cases hcase : b.bytes.length ≤ (w.vectors f.data_).length - f.pos_
    · rw [Nat.min_eq_right hcase, List.take_add, List.drop_drop]
    · have hmin : min ((w.vectors f.data_).length - f.pos_) b.bytes.length
          = (w.vectors f.data_).length - f.pos_ := Nat.min_eq_left (by omega)
      have h1 : ((w.vectors f.data_).drop f.pos_).take ((w.vectors f.data_).length - f.pos_)
          = (w.vectors f.data_).drop f.pos_ := List.take_of_length_le (by simp)
      have h2 : (w.vectors f.data_).drop (f.pos_ + ((w.vectors f.data_).length - f.pos_))
          = [] := List.drop_of_length_le (by omega)
      have h3 : ((w.vectors f.data_).drop f.pos_).take (b.bytes.length + total_length bs)
          = (w.vectors f.data_).drop f.pos_ := List.take_of_length_le (by simp; omega)
      rw [hmin, h1, h2, h3, List.take_nil, List.append_nil]
/-- C13, as stated, fails: after `semantic_blocking_write` of `[1, 2, 3, 4]` on an object
over an empty buffer the cursor of that object is 4, the end of the buffer, and a
`semantic_blocking_read(buf, 10)` on the same object returns 0 bytes, not the 4 bytes
`[1, 2, 3, 4]`. -/
theorem stream_fidelity_same_object_counterexample :
    (blocking_writes ⟨0, 0⟩ empty_world [⟨0, [1, 2, 3, 4]⟩]).1.pos_ = 4 ∧
    ((blocking_writes ⟨0, 0⟩ empty_world [⟨0, [1, 2, 3, 4]⟩]).1.semantic_blocking_read
        ⟨0, List.replicate 10 0⟩ 10
        (blocking_writes ⟨0, 0⟩ empty_world [⟨0, [1, 2, 3, 4]⟩]).2).ret = 0 ∧
    (blocking_reads (blocking_writes ⟨0, 0⟩ empty_world [⟨0, [1, 2, 3, 4]⟩]).1
        (blocking_writes ⟨0, 0⟩ empty_world [⟨0, [1, 2, 3, 4]⟩]).2
        [⟨0, List.replicate 10 0⟩]).2.2.flatten ≠ [1, 2, 3, 4] := by
  decide

/-- C13, amended: chunks written by successive `semantic_blocking_write` calls on an
object with cursor 0 over an empty buffer make the buffer the concatenation of the
chunks; the bytes returned by successive `semantic_blocking_read` calls through an object
with cursor 0 on the same buffer, concatenated in order, are the first bytes of that
concatenation, as many as were asked for in total, hence all of it when at least as many
are asked for as were written; a read asking for more than the buffer holds returns the
shorter count; reads on the writing object, whose cursor is at the end, return nothing. -/
theorem stream_fidelity_fresh_reader (a : Nat) (w : World) (chunks reads : List mem_block)
    (hempty : w.vectors a = []) (hfit : total_length chunks ≤ SIZE_MAX) :
    (blocking_writes ⟨0, a⟩ w chunks).2.vectors a = all_bytes chunks ∧
    (blocking_writes ⟨0, a⟩ w chunks).1.pos_ = total_length chunks ∧
    (blocking_reads ⟨0, a⟩ (blocking_writes ⟨0, a⟩ w chunks).2 reads).2.2.flatten
      = (all_bytes chunks).take (total_length reads) ∧
    (total_length chunks ≤ total_length reads →
      (blocking_reads ⟨0, a⟩ (blocking_writes ⟨0, a⟩ w chunks).2 reads).2.2.flatten
        = all_bytes chunks) ∧
    (∀ (b : mem_block) (n : Nat),
      ((⟨0, a⟩ : mock_semantic_checking_file_t).semantic_blocking_read b n
        (blocking_writes ⟨0, a⟩ w chunks).2).ret = min n (total_length chunks)) ∧
    (blocking_reads (blocking_writes ⟨0, a⟩ w chunks).1 (blocking_writes ⟨0, a⟩ w chunks).2
      reads).2.2.flatten = [] := by
  have hw := blocking_writes_eq chunks ⟨0, a⟩ w (by simp [hempty]) (by simp only; omega)
  simp only [hempty, List.nil_append, Nat.zero_add] at hw
  rw [hw]
  simp only [store_vectors_same]
  have hsz : is_size_t ((w.store a (all_bytes chunks)).vectors a).length := by
    rw [store_vectors_same, all_bytes_length]; exact hfit
  have hfresh := blocking_reads_eq reads ⟨0, a⟩ (w.store a (all_bytes chunks))
    (Nat.zero_le _) hsz
  have hsame := blocking_reads_eq reads ⟨total_length chunks, a⟩
    (w.store a (all_bytes chunks)) (by simp [store_vectors_same, all_bytes_length]) hsz
  simp only [store_vectors_same, List.drop_zero] at hfresh hsame
  refine ⟨trivial, trivial, hfresh.1, ?_, ?_, ?_⟩
  · intro hle
    rw [hfresh.1, List.take_of_length_le (by rw [all_bytes_length]; exact hle)]
  · intro b n
    rw [semantic_blocking_read_eq ⟨0, a⟩ _ b n (Nat.zero_le _) hsz]
    simp only [store_vectors_same, all_bytes_length, Nat.sub_zero]
    exact Nat.min_comm _ _
  · rw [hsame.1, List.drop_of_length_le (by rw [all_bytes_length]), List.take_nil]

/-- C13, amended, witness: `semantic_blocking_write` of `[1, 2, 3, 4]` over an empty
buffer, then `semantic_blocking_read(buf, 10)` through an object with cursor 0 on the same
buffer returns the 4 bytes `[1, 2, 3, 4]`. -/
theorem stream_fidelity_fresh_reader_witness :
    (blocking_reads ⟨0, 0⟩ (blocking_writes ⟨0, 0⟩ empty_world [⟨0, [1, 2, 3, 4]⟩]).2
      [⟨0, List.replicate 10 0⟩]).2.2.flatten = [1, 2, 3, 4] :=
  (stream_fidelity_fresh_reader 0 empty_world [⟨0, [1, 2, 3, 4]⟩]
    [⟨0, List.replicate 10 0⟩] rfl (by decide)).2.2.2.1 (by decide)

/-! ## `writev_async` and the alignment check -/

theorem fill_from_eq (source : List (List Byte)) (dst : List Byte) (off : Nat)
    (h : off + source.flatten.length ≤ dst.length) :
    fill_from dst off source
      = dst.take off ++ source.flatten ++ dst.drop (off + source.flatten.length) := by
  induction source generalizing dst off with
  | nil => simp [fill_from]
  | cons s rest ih =>
    simp only [List.flatten_cons, List.length_append] at h ⊢
    have hoff : (dst.take off).length = off := by simp; omega
    have hm : memcpy dst off s 0 s.length = dst.take off ++ s ++ dst.drop (off + s.length) := by
      simp [memcpy]
    unfold fill_from
    rw [hm, ih _ _ (by simp only [List.length_append, List.length_drop, hoff]; omega)]
    have h1 : (dst.take off ++ s ++ dst.drop (off + s.length)).take (off + s.length)
        = dst.take off ++ s := by
      rw [List.take_append_of_le_length (by simp only [List.length_append, hoff]; omega),
        List.take_of_length_le (by simp only [List.length_append, hoff]; omega)]
    have h2 : (dst.take off ++ s ++ dst.drop (off + s.length)).drop
        (off + s.length + rest.flatten.length)
        = dst.drop (off + (s.length + rest.flatten.length)) := by
      rw [List.drop_append_eq_append_drop,
        List.drop_of_length_le (by simp only [List.length_append, hoff]; omega)]
      simp only [List.length_append, hoff, List.nil_append, List.drop_drop]
      congr 1
      omega
    rw [h1, h2]
    simp only [List.append_assoc]

theorem fill_bufs_from_source_eq (staging : List Byte) (bufs : List mem_block)
    (h : total_length bufs = staging.length) :
    fill_bufs_from_source staging bufs = all_bytes bufs := by
  have hlen := all_bytes_length bufs
  unfold all_bytes at hlen ⊢
  unfold fill_bufs_from_source
  rw [fill_from_eq _ _ _ (by omega)]
  simp only [List.take_zero, List.nil_append, Nat.zero_add]
  rw [List.drop_of_length_le (by omega), List.append_nil]

/-- C14: for a scatter-gather list whose buffer lengths sum to `length`, and a staging
block of `length` bytes, the staging block is filled with the buffers concatenated in
list order and `writev_async(offset, length, bufs, account, cb)` ends exactly as
`write_async(offset, length, buf, account, cb)` does on a block holding that
concatenation at the staging address: the same failure or the same final world, with the
same contents and the same completion posted. -/
theorem writev_async_eq_write_async (verify : Nat → Int → Nat → Nat → Bool)
    (self : mock_file_t) (offset : Int) (length : Nat) (bufs : List mem_block) (cb : Nat)
    (staging : mem_block) (w : World) (hsum : total_length bufs = length)
    (hstaging : staging.bytes.length = length) :
    fill_bufs_from_source staging.bytes bufs = all_bytes bufs ∧
    self.writev_async verify offset length bufs cb staging w
      = self.write_async verify offset length ⟨staging.addr, all_bytes bufs⟩ cb w ∧
    (self.writev_async verify offset length bufs cb staging w).succeeded
      = (self.write_async verify offset length ⟨staging.addr, all_bytes bufs⟩ cb
          w).succeeded ∧
    (self.writev_async verify offset length bufs cb staging w).state
      = (self.write_async verify offset length ⟨staging.addr, all_bytes bufs⟩ cb w).state := by
  have hfill := fill_bufs_from_source_eq staging.bytes bufs (by omega)
  have heq : self.writev_async verify offset length bufs cb staging w
      = self.write_async verify offset length ⟨staging.addr, all_bytes bufs⟩ cb w := by
    unfold mock_file_t.writev_async
    simp only [hfill]
  exact ⟨hfill, heq, by rw [heq], by rw [heq]⟩

/-- C14, witness: the buffers `[1, 2]` and `[3]` written at offset 1 of five zero bytes
leave `[0, 1, 2, 3, 0]`. -/
theorem writev_async_eq_write_async_witness :
    ((⟨mode_rw, 0⟩ : mock_file_t).writev_async (fun _ _ _ _ => true) 1 3
        [⟨0, [1, 2]⟩, ⟨8, [3]⟩] 5 ⟨512, [9, 9, 9]⟩
        (empty_world.store 0 [0, 0, 0, 0, 0])).state
      = ((⟨mode_rw, 0⟩ : mock_file_t).write_async (fun _ _ _ _ => true) 1 3
          ⟨512, all_bytes [⟨0, [1, 2]⟩, ⟨8, [3]⟩]⟩ 5
          (empty_world.store 0 [0, 0, 0, 0, 0])).state :=
  (writev_async_eq_write_async (fun _ _ _ _ => true) ⟨mode_rw, 0⟩ 1 3
    [⟨0, [1, 2]⟩, ⟨8, [3]⟩] 5 ⟨512, [9, 9, 9]⟩ (empty_world.store 0 [0, 0, 0, 0, 0])
    rfl rfl).2.2.2

/-- C15: `read_async` and `write_async` hand the buffer size, the offset, the length and
the block's address to the alignment check before any byte is copied: when the check
rejects them the call ends fatally in the unchanged world (nothing copied, no completion
posted).  With the check of the specification, a call whose offset, length or block
address is not a multiple of the device block size ends so. -/
theorem alignment_gating (DEVICE_BLOCK_SIZE : Nat) (self : mock_file_t) (w : World)
    (offset : Int) (length : Nat) (buf : mem_block) (cb : Nat)
    (hmis : ¬ ((DEVICE_BLOCK_SIZE : Int) ∣ offset) ∨ ¬ (DEVICE_BLOCK_SIZE ∣ length)
      ∨ ¬ (DEVICE_BLOCK_SIZE ∣ buf.addr)) :
    self.read_async (verify_aligned_file_access DEVICE_BLOCK_SIZE) offset length buf cb w
      = .fatal w ∧
    self.write_async (verify_aligned_file_access DEVICE_BLOCK_SIZE) offset length buf cb w
      = .fatal w ∧
    (∀ verify : Nat → Int → Nat → Nat → Bool,
      verify (self.contents w).length offset length buf.addr = false →
      self.read_async verify offset length buf cb w = .fatal w ∧
      self.write_async verify offset length buf cb w = .fatal w) := by
  have hgen : ∀ verify : Nat → Int → Nat → Nat → Bool,
      verify (self.contents w).length offset length buf.addr = false →
      self.read_async verify offset length buf cb w = .fatal w ∧
      self.write_async verify offset length buf cb w = .fatal w := by
    intro verify hv
    unfold mock_file_t.contents at hv
    constructor
    · unfold mock_file_t.read_async
      cases self.mode_.read <;> simp [hv]
    · unfold mock_file_t.write_async
      cases self.mode_.write <;> simp [hv]
  have hv : verify_aligned_file_access DEVICE_BLOCK_SIZE (self.contents w).length offset
      length buf.addr = false := by
    unfold verify_aligned_file_access
    rcases hmis with h | h | h <;> simp [h]
  exact ⟨(hgen _ hv).1, (hgen _ hv).2, hgen⟩

/-- C15, witness: block size 512 and offset 100. -/
theorem alignment_gating_witness :
    (⟨mode_rw, 0⟩ : mock_file_t).read_async (verify_aligned_file_access 512) 100 512
        ⟨4096, List.replicate 512 0⟩ 1 (empty_world.store 0 (List.replicate 1024 0))
      = .fatal (empty_world.store 0 (List.replicate 1024 0)) :=
  (alignment_gating 512 ⟨mode_rw, 0⟩ (empty_world.store 0 (List.replicate 1024 0)) 100 512
    ⟨4096, List.replicate 512 0⟩ 1 (Or.inl (by decide))).1

/-! ## Sequences of lifecycle operations and of blocking calls -/

theorem step_rank_le (self : mock_file_opener_t) (op : opener_op) :
    self.file_existence_state_.rank ≤ (self.step op).state.file_existence_state_.rank := by
  obtain ⟨a, s⟩ := self
  cases s <;> cases op <;> simp [mock_file_opener_t.step, opener_create_eq, opener_move_eq,
    opener_existing_eq, opener_unlink_eq, Outcome.state, file_existence_state_t.rank]

theorem run_rank_le (ops : List opener_op) (self : mock_file_opener_t) :
    self.file_existence_state_.rank ≤ (self.run ops).file_existence_state_.rank := by
  induction ops generalizing self with
  | nil => exact Nat.le_refl _
  | cons op ops ih =>
    exact Nat.le_trans (step_rank_le self op) (ih (self.step op).state)

theorem run_append (ops1 ops2 : List opener_op) (self : mock_file_opener_t) :
    self.run (ops1 ++ ops2) = (self.run ops1).run ops2 := by
  induction ops1 generalizing self with
  | nil => rfl
  | cons op ops ih => exact ih (self.step op).state

/-- C16: over every finite sequence of lifecycle operations, returned or failed, from any
state, the state never moves backward in the order
`no_file < temporary_file < permanent_file < unlinked_file`: the state after a longer
sequence is not before the state after any of its prefixes.  A single operation changes
the state only when it returned from a state the transition table permits it in, and then
the state moves strictly forward; the address of the opener's vector never changes. -/
theorem lifecycle_strictly_ordered (self : mock_file_opener_t) (ops1 ops2 : List opener_op)
    (op : opener_op) :
    (self.run ops1).file_existence_state_.rank
      ≤ (self.run (ops1 ++ ops2)).file_existence_state_.rank ∧
    self.file_existence_state_.rank ≤ (self.run ops1).file_existence_state_.rank ∧
    ((self.step op).state.file_existence_state_ ≠ self.file_existence_state_ →
      (self.step op).succeeded = true ∧
      spec_transition self.file_existence_state_ op
        = some (self.step op).state.file_existence_state_ ∧
      self.file_existence_state_.rank < (self.step op).state.file_existence_state_.rank) ∧
    ((self.step op).succeeded = false → (self.step op).state = self) ∧
    (self.run ops1).file_ = self.file_ := by
  refine ⟨?_, run_rank_le ops1 self, ?_, ?_, ?_⟩
  · rw [run_append]
    exact run_rank_le ops2 _
  · obtain ⟨a, s⟩ := self
    cases s <;> cases op <;> simp [mock_file_opener_t.step, opener_create_eq, opener_move_eq,
      opener_existing_eq, opener_unlink_eq, Outcome.succeeded, Outcome.state,
      file_existence_state_t.rank, spec_transition]
  · obtain ⟨a, s⟩ := self
    cases s <;> cases op <;> simp [mock_file_opener_t.step, opener_create_eq, opener_move_eq,
      opener_existing_eq, opener_unlink_eq, Outcome.succeeded, Outcome.state]
  · induction ops1 generalizing self with
    | nil => rfl
    | cons o os ih =>
      have h1 : (self.step o).state.file_ = self.file_ := by
        obtain ⟨a, s⟩ := self
        cases s <;> cases o <;> rfl
      exact (ih (self.step o).state).trans h1

/-- C19: a lifecycle operation invoked from a state in which the transition table does
not permit it ends fatally with the opener (its lifecycle state and the address of its
vector) and the world (the contents of every vector) exactly as they were, and hands out
no file. -/
theorem rejected_call_atomic (s : opener_world) (op : opener_op)
    (hrej : spec_transition s.opener.file_existence_state_ op = none) :
    s.call op = .fatal s ∧
    (s.call op).result = none ∧
    (s.call op).state.opener.file_existence_state_ = s.opener.file_existence_state_ ∧
    (s.call op).state.world.vectors s.opener.file_ = s.world.vectors s.opener.file_ ∧
    s.opener.step op = .fatal s.opener := by
  obtain ⟨⟨a, st⟩, w⟩ := s
  cases st <;> cases op <;> simp only [spec_transition] at hrej <;>
    first | exact ⟨rfl, rfl, rfl, rfl, rfl⟩ | cases hrej

/-- C19, witness: `unlink` on an opener in state `no_file`. -/
theorem rejected_call_atomic_witness :
    (⟨⟨0, .no_file⟩, empty_world.store 0 [1, 2, 3]⟩ : opener_world).call .unlink
      = .fatal ⟨⟨0, .no_file⟩, empty_world.store 0 [1, 2, 3]⟩ :=
  (rejected_call_atomic ⟨⟨0, .no_file⟩, empty_world.store 0 [1, 2, 3]⟩ .unlink rfl).1

theorem run_stream_invariant (calls : List stream_call) (f : mock_semantic_checking_file_t)
    (w : World) (hp : f.pos_ ≤ f.size w) (hfit : f.size w + total_written calls ≤ SIZE_MAX) :
    (run_stream f w calls).1.pos_ ≤ (run_stream f w calls).1.size (run_stream f w calls).2 ∧
    (run_stream f w calls).1.size (run_stream f w calls).2 ≤ f.size w + total_written calls := by
  induction calls generalizing f w with
  | nil => exact ⟨hp, Nat.le_refl _⟩
  | cons c cs ih =>
    unfold mock_file_t.contents mock_semantic_checking_file_t.size at *
    have htw : total_written (c :: cs) = c.written + total_written cs := rfl
    rw [htw] at hfit ⊢
    cases c with
    | read b n =>
      have hs : is_size_t (w.vectors f.data_).length := by unfold is_size_t; omega
      have hr := semantic_blocking_read_eq f w b n hp hs
      unfold run_stream
      rw [hr]
      simp only [stream_call.written, Nat.zero_add] at hfit ⊢
      exact ih _ w (by simp only [mock_semantic_checking_file_t.size]; omega)
        (by simp only [mock_semantic_checking_file_t.size]; omega)
    | write b =>
      simp only [stream_call.written] at hfit ⊢
      have hw := semantic_blocking_write_eq f w b b.bytes.length hp rfl (by omega)
      unfold run_stream
      rw [hw]
      have hlen : ((w.vectors f.data_).take f.pos_ ++ b.bytes
          ++ (w.vectors f.data_).drop (f.pos_ + b.bytes.length)).length
          = max (w.vectors f.data_).length (f.pos_ + b.bytes.length) := by
        simp only [List.length_append, List.length_take, List.length_drop]
        omega
      have ih1 := ih ⟨f.pos_ + b.bytes.length, f.data_⟩
        (w.store f.data_ ((w.vectors f.data_).take f.pos_ ++ b.bytes
          ++ (w.vectors f.data_).drop (f.pos_ + b.bytes.length)))
        (by simp only [mock_semantic_checking_file_t.size, store_vectors_same, hlen]; omega)
        (by simp only [mock_semantic_checking_file_t.size, store_vectors_same, hlen]; omega)
      simp only [mock_semantic_checking_file_t.size, store_vectors_same, hlen] at ih1
      simp only [mock_semantic_checking_file_t.size]
      exact ⟨ih1.1, by omega⟩

theorem read_step_cursor_le (f : mock_semantic_checking_file_t) (w : World) (buf : mem_block)
    (n : Nat) (hp : f.pos_ ≤ f.size w) (hpos : is_size_t f.pos_) :
    (f.semantic_blocking_read buf n w).file.pos_
      ≤ (f.semantic_blocking_read buf n w).file.size (f.semantic_blocking_read buf n w).world ∧
    is_size_t (f.semantic_blocking_read buf n w).file.pos_ := by
  unfold is_size_t SIZE_MAX mock_semantic_checking_file_t.size at *
  simp only [mock_semantic_checking_file_t.semantic_blocking_read, uadd64, usub64]
  omega

theorem write_step_cursor_le (f : mock_semantic_checking_file_t) (w : World) (buf : mem_block)
    (n : Nat) (hp : f.pos_ ≤ f.size w) (hbuf : n ≤ buf.bytes.length) :
    (f.semantic_blocking_write buf n w).file.pos_
      ≤ (f.semantic_blocking_write buf n w).file.size
          (f.semantic_blocking_write buf n w).world ∧
    is_size_t (f.semantic_blocking_write buf n w).file.pos_ := by
  unfold is_size_t SIZE_MAX mock_semantic_checking_file_t.size at *
  simp only [mock_semantic_checking_file_t.semantic_blocking_write, uadd64, store_vectors_same,
    memcpy, List.length_append, List.length_take, List.length_drop]
  split
  · simp only [store_vectors_same, resize_length]
    omega
  · omega

theorem run_stream_cursor_le (calls : List stream_call) (f : mock_semantic_checking_file_t)
    (w : World) (hp : f.pos_ ≤ f.size w) (hpos : is_size_t f.pos_) :
    (run_stream f w calls).1.pos_ ≤ (run_stream f w calls).1.size (run_stream f w calls).2 := by
  induction calls generalizing f w with
  | nil => exact hp
  | cons c cs ih =>
    cases c with
    | read b n =>
      have h := read_step_cursor_le f w b n hp hpos
      unfold run_stream
      exact ih _ _ h.1 h.2
    | write b =>
      have h := write_step_cursor_le f w b b.bytes.length hp (Nat.le_refl _)
      unfold run_stream
      exact ih _ _ h.1 h.2

/-- C17: with the cursor at most the buffer size (a `size_t`), the subtraction
`size - cursor` of `semantic_blocking_read` does not wrap; the cursor is at most the
buffer size after a `semantic_blocking_read`, and after a `semantic_blocking_write` from a
block that holds the bytes to write; hence after every finite sequence of such calls, in
particular on a stream that starts at cursor 0, the cursor is at most the buffer size, and
as long as the bytes written fit into `size_t` with the buffer the buffer size stays a
`size_t` and the subtraction of a following read does not wrap either. -/
theorem cursor_invariant (f : mock_semantic_checking_file_t) (w : World)
    (hp : f.pos_ ≤ f.size w) (hs : is_size_t (f.size w)) :
    usub64 (f.size w) f.pos_ = f.size w - f.pos_ ∧
    (∀ (buf : mem_block) (n : Nat),
      (f.semantic_blocking_read buf n w).file.pos_
        ≤ (f.semantic_blocking_read buf n w).file.size
            (f.semantic_blocking_read buf n w).world) ∧
    (∀ (buf : mem_block) (n : Nat), n ≤ buf.bytes.length →
      (f.semantic_blocking_write buf n w).file.pos_
        ≤ (f.semantic_blocking_write buf n w).file.size
            (f.semantic_blocking_write buf n w).world) ∧
    (∀ calls : List stream_call,
      (run_stream f w calls).1.pos_
        ≤ (run_stream f w calls).1.size (run_stream f w calls).2) ∧
    (∀ (a : Nat) (calls : List stream_call),
      (run_stream ⟨0, a⟩ w calls).1.pos_
        ≤ (run_stream ⟨0, a⟩ w calls).1.size (run_stream ⟨0, a⟩ w calls).2) ∧
    (∀ calls : List stream_call, f.size w + total_written calls ≤ SIZE_MAX →
      is_size_t ((run_stream f w calls).1.size (run_stream f w calls).2) ∧
      usub64 ((run_stream f w calls).1.size (run_stream f w calls).2)
          (run_stream f w calls).1.pos_
        = (run_stream f w calls).1.size (run_stream f w calls).2
          - (run_stream f w calls).1.pos_) := by
  have hpos : is_size_t f.pos_ := by unfold is_size_t at *; omega
  refine ⟨usub64_of_le _ _ hp hs, ?_, ?_, ?_, ?_, ?_⟩
  · intro buf n
    exact (read_step_cursor_le f w buf n hp hpos).1
  · intro buf n hn
    exact (write_step_cursor_le f w buf n hp hn).1
  · intro calls
    exact run_stream_cursor_le calls f w hp hpos
  · intro a calls
    exact run_stream_cursor_le calls ⟨0, a⟩ w (Nat.zero_le _) (Nat.zero_le _)
  · intro calls hfit
    have h := run_stream_invariant calls f w hp hfit
    have hsz : is_size_t ((run_stream f w calls).1.size (run_stream f w calls).2) := by
      unfold is_size_t; omega
    exact ⟨hsz, usub64_of_le _ _ h.1 hsz⟩

/-- C17, witness: on a stream that starts at cursor 0 over an empty buffer, after writing
`[1, 2, 3]`, reading 2 bytes and writing `[4]`, the cursor is at most the buffer size. -/
theorem cursor_invariant_witness :
    (run_stream ⟨0, 0⟩ empty_world
        [.write ⟨0, [1, 2, 3]⟩, .read ⟨0, [0, 0]⟩ 2, .write ⟨0, [4]⟩]).1.pos_
      ≤ (run_stream ⟨0, 0⟩ empty_world
          [.write ⟨0, [1, 2, 3]⟩, .read ⟨0, [0, 0]⟩ 2, .write ⟨0, [4]⟩]).1.size
        (run_stream ⟨0, 0⟩ empty_world
          [.write ⟨0, [1, 2, 3]⟩, .read ⟨0, [0, 0]⟩ 2, .write ⟨0, [4]⟩]).2 :=
  (cursor_invariant ⟨0, 0⟩ empty_world (by decide) (by decide)).2.2.2.1
    [.write ⟨0, [1, 2, 3]⟩, .read ⟨0, [0, 0]⟩ 2, .write ⟨0, [4]⟩]

/-! ## What the asynchronous calls leave unchanged -/

/-- C18: for an `int64_t` offset, a `size_t` length and size, and a caller's block that
holds `length` bytes: `read_async`, returned or failed, leaves every vector as it was, and
when it returns the first `length` bytes of its block are the buffer bytes
`[offset, offset + length)` and the rest of the block is as before; `write_async`,
returned or failed, leaves the size of the buffer as it was, every byte outside
`[offset, offset + length)` unchanged, and every other vector untouched; neither call
grows the buffer. -/
theorem async_frame (verify : Nat → Int → Nat → Nat → Bool) (self : mock_file_t)
    (w : World) (offset : Int) (length : Nat) (buf : mem_block) (cb : Nat)
    (hoff : is_int64 offset) (hlen : is_size_t length)
    (hsize : is_size_t (self.contents w).length) (hbuf : length ≤ buf.bytes.length) :
    (self.read_async verify offset length buf cb w).state.vectors = w.vectors ∧
    ((self.read_async verify offset length buf cb w).succeeded = true →
      (self.read_async verify offset length buf cb w).result
        = some (((self.contents w).drop offset.toNat).take length ++ buf.bytes.drop length) ∧
      (((self.contents w).drop offset.toNat).take length).length = length) ∧
    (self.contents (self.write_async verify offset length buf cb w).state).length
      = (self.contents w).length ∧
    (∀ i : Nat, (i : Int) < offset ∨ offset + length ≤ i →
      (self.contents (self.write_async verify offset length buf cb w).state)[i]?
        = (self.contents w)[i]?) ∧
    (∀ a : Nat, a ≠ self.data_ →
      (self.write_async verify offset length buf cb w).state.vectors a = w.vectors a) := by
  unfold mock_file_t.contents at *
  have hiff := bounds_guard_iff offset length _ hoff hlen hsize
  refine ⟨?_, ?_, ?_, ?_, ?_⟩
  · unfold mock_file_t.read_async
    repeat' split
    all_goals rfl
  · intro hsucc
    have hall : self.mode_.read = true
        ∧ verify (w.vectors self.data_).length offset length buf.addr = true
        ∧ bounds_guard offset length (w.vectors self.data_).length = true := by
      unfold mock_file_t.read_async at hsucc
      cases h1 : self.mode_.read <;>
        cases h2 : verify (w.vectors self.data_).length offset length buf.addr <;>
        cases h3 : bounds_guard offset length (w.vectors self.data_).length <;>
        simp [h1, h2, h3, Outcome.succeeded] at hsucc ⊢
    have hb := hiff.1 hall.2.2
    have hu : to_uint64 offset = offset.toNat :=
      to_uint64_of_nonneg offset hb.1 (by unfold is_int64 at hoff; omega)
    constructor
    · simp [mock_file_t.read_async, hall, hu, memcpy, Outcome.result]
    · simp only [List.length_take, List.length_drop]
      omega
  all_goals
    by_cases hall : self.mode_.write = true
        ∧ verify (w.vectors self.data_).length offset length buf.addr = true
        ∧ bounds_guard offset length (w.vectors self.data_).length = true
  · have hb := hiff.1 hall.2.2
    have hu : to_uint64 offset = offset.toNat :=
      to_uint64_of_nonneg offset hb.1 (by unfold is_int64 at hoff; omega)
    simp only [mock_file_t.write_async, hall, hu, Bool.not_true, Bool.false_eq_true, if_false,
      Outcome.state, spawn_sometime, store_vectors_same]
    exact memcpy_length _ _ _ _ _ (by omega) (by omega)
  · have hfail : self.write_async verify offset length buf cb w = .fatal w := by
      unfold mock_file_t.write_async
      cases h1 : self.mode_.write <;>
        cases h2 : verify (w.vectors self.data_).length offset length buf.addr <;>
        cases h3 : bounds_guard offset length (w.vectors self.data_).length <;>
        simp [h1, h2, h3] at hall ⊢
    rw [hfail]
    rfl
  · have hb := hiff.1 hall.2.2
    have hu : to_uint64 offset = offset.toNat :=
      to_uint64_of_nonneg offset hb.1 (by unfold is_int64 at hoff; omega)
    simp only [mock_file_t.write_async, hall, hu, Bool.not_true, Bool.false_eq_true, if_false,
      Outcome.state, spawn_sometime, store_vectors_same]
    intro i hi
    have htl : ((w.vectors self.data_).take offset.toNat).length = offset.toNat := by
      simp only [List.length_take]; omega
    have hml : ((buf.bytes.drop 0).take length).length = length := by
      simp only [List.drop_zero, List.length_take]; omega
    unfold memcpy
    rcases hi with hi | hi
    · rw [List.append_assoc, List.getElem?_append_left (by omega),
        List.getElem?_take_of_lt (by omega)]
    · rw [List.getElem?_append_right (by simp only [List.length_append, htl, hml]; omega)]
      simp only [List.length_append, htl, hml, List.getElem?_drop]
      congr 1
      omega
  · have hfail : self.write_async verify offset length buf cb w = .fatal w := by
      unfold mock_file_t.write_async
      cases h1 : self.mode_.write <;>
        cases h2 : verify (w.vectors self.data_).length offset length buf.addr <;>
        cases h3 : bounds_guard offset length (w.vectors self.data_).length <;>
        simp [h1, h2, h3] at hall ⊢
    rw [hfail]
    intro i _
    rfl
  · simp only [mock_file_t.write_async, hall, Bool.not_true, Bool.false_eq_true, if_false,
      Outcome.state, spawn_sometime]
    intro a ha
    exact store_vectors_other _ _ _ _ ha
  · have hfail : self.write_async verify offset length buf cb w = .fatal w := by
      unfold mock_file_t.write_async
      cases h1 : self.mode_.write <;>
        cases h2 : verify (w.vectors self.data_).length offset length buf.addr <;>
        cases h3 : bounds_guard offset length (w.vectors self.data_).length <;>
        simp [h1, h2, h3] at hall ⊢
    rw [hfail]
    intro a _
    rfl

/-- C18, witness: a read of 2 bytes at offset 1 of the vector `[1, 2, 3, 4]` returns
`[2, 3]` and leaves the vector as it was; a write there leaves its size 4. -/
theorem async_frame_witness :
    ((⟨mode_rw, 0⟩ : mock_file_t).read_async (fun _ _ _ _ => true) 1 2 ⟨0, [0, 0]⟩ 7
        (empty_world.store 0 [1, 2, 3, 4])).result = some [2, 3] ∧
    ((⟨mode_rw, 0⟩ : mock_file_t).read_async (fun _ _ _ _ => true) 1 2 ⟨0, [0, 0]⟩ 7
        (empty_world.store 0 [1, 2, 3, 4])).state.vectors
      = (empty_world.store 0 [1, 2, 3, 4]).vectors ∧
    ((⟨mode_rw, 0⟩ : mock_file_t).contents
      ((⟨mode_rw, 0⟩ : mock_file_t).write_async (fun _ _ _ _ => true) 1 2 ⟨0, [0, 0]⟩ 7
        (empty_world.store 0 [1, 2, 3, 4])).state).length = 4 :=
  have h := async_frame (fun _ _ _ _ => true) ⟨mode_rw, 0⟩ (empty_world.store 0 [1, 2, 3, 4])
    1 2 ⟨0, [0, 0]⟩ 7 (by decide) (by decide) (by decide) (by decide)
  ⟨(h.2.1 rfl).1, h.1, h.2.2.1⟩

end unittest
